import Mathlib

/-!
Verification of the transform subsystem of a strongly typed 2D/3D geometry
library.  The Rust source stores matrix-backed transforms as a pair of a
forward matrix and its cached inverse, quaternion rotations as four scalars,
and applies transforms to points, vectors, normals and boxes.

The shallow embedding below works over an arbitrary `LinearOrderedField K`
(the library is generic over a scalar type; `f32`/`f64` arithmetic is
idealised as exact field arithmetic, as the specification's properties are
stated "under exact arithmetic").  Operations whose Rust implementation calls
`sqrt`, `sin`, `cos`, `acos` are embedded over `ℝ` using `Real.sqrt`,
`Real.sin`, `Real.cos`, `Real.arccos`.  Phantom coordinate-space tags have no
runtime content and are omitted.  Rust's `Result<_, ()>` is embedded as
`Except Unit` and `Option<T>` as `Option`.
-/

set_option linter.unusedVariables false

namespace rt3

variable {K : Type} [LinearOrderedField K]

/-- Rust helper `min` from `num.rs`: `if x <= y { x } else { y }`. -/
def rustMin (x y : K) : K := if x ≤ y then x else y

/-- Rust helper `max` from `num.rs`: `if x >= y { x } else { y }`. -/
def rustMax (x y : K) : K := if y ≤ x then x else y

/-- Scalar `ApproxEq::approx_eq_eps` for floats in `num.rs`:
`(self - other).abs() < eps`. -/
def approxEqEps (x y eps : K) : Prop := |x - y| < eps

instance (x y eps : K) : Decidable (approxEqEps x y eps) :=
  inferInstanceAs (Decidable (|x - y| < eps))

/-- Scalar `ApproxEq::epsilon()` for floats in `num.rs`: the literal `1e-6`. -/
def scalarEpsilon : K := 1 / 1000000

/-- Default scalar approximate equality `approx_eq`:
`approx_eq_eps` at `epsilon()`. -/
def approxEq (x y : K) : Prop := approxEqEps x y scalarEpsilon

/-- 2D vector (`Vector2<T, U>`); the phantom unit tag is erased. -/
@[ext]
structure Vector2 (K : Type) where
  x : K
  y : K
  deriving DecidableEq

/-- 3D vector (`Vector3<T, U>`); the phantom unit tag is erased. -/
@[ext]
structure Vector3 (K : Type) where
  x : K
  y : K
  z : K
  deriving DecidableEq

/-- 2D point (`Point2<T, U>`). -/
@[ext]
structure Point2 (K : Type) where
  x : K
  y : K
  deriving DecidableEq

/-- 3D point (`Point3<T, U>`). -/
@[ext]
structure Point3 (K : Type) where
  x : K
  y : K
  z : K
  deriving DecidableEq

/-- `HomogeneousVector<T, U>` from `homogen.rs`. -/
@[ext]
structure HomogeneousVector (K : Type) where
  x : K
  y : K
  z : K
  w : K
  deriving DecidableEq

/-- Axis-aligned 3D box (`Box3<T, U>` from `box.rs`): a `min` and a `max`
corner. -/
@[ext]
structure Box3 (K : Type) where
  min : Point3 K
  max : Point3 K
  deriving DecidableEq

/-- `Point3::to_vector`. -/
def Point3.to_vector (p : Point3 K) : Vector3 K := ⟨p.x, p.y, p.z⟩

/-- `Vector3::to_point`. -/
def Vector3.to_point (v : Vector3 K) : Point3 K := ⟨v.x, v.y, v.z⟩

/-- `Vector3::dot`. -/
def Vector3.dot (v w : Vector3 K) : K := v.x * w.x + v.y * w.y + v.z * w.z

/-- `Vector3::cross`. -/
def Vector3.cross (v w : Vector3 K) : Vector3 K :=
  ⟨v.y * w.z - v.z * w.y, v.z * w.x - v.x * w.z, v.x * w.y - v.y * w.x⟩

/-- Scalar multiplication `Mul<T> for Vector3` (componentwise). -/
def Vector3.smul (v : Vector3 K) (c : K) : Vector3 K := ⟨v.x * c, v.y * c, v.z * c⟩

/-- `Vector3::length_squared`. -/
def Vector3.length_squared (v : Vector3 K) : K := v.x * v.x + v.y * v.y + v.z * v.z

/-- `Point3::min` (componentwise, via the Rust `min` helper). -/
def Point3.pmin (p q : Point3 K) : Point3 K :=
  ⟨rustMin p.x q.x, rustMin p.y q.y, rustMin p.z q.z⟩

/-- `Point3::max` (componentwise, via the Rust `max` helper). -/
def Point3.pmax (p q : Point3 K) : Point3 K :=
  ⟨rustMax p.x q.x, rustMax p.y q.y, rustMax p.z q.z⟩

/-- Componentwise `≤` on points; the containment order used to state the
box tight-fit property. -/
def Point3.le (p q : Point3 K) : Prop := p.x ≤ q.x ∧ p.y ≤ q.y ∧ p.z ≤ q.z

instance (p q : Point3 K) : Decidable (p.le q) :=
  inferInstanceAs (Decidable (p.x ≤ q.x ∧ p.y ≤ q.y ∧ p.z ≤ q.z))

/-- The 3×2 matrix backing `Transform2` (`mat: [[T; 2]; 3]`), with entry
`mIJ` holding `mat[I-1][J-1]`; the first two rows are the linear part, the
third row is the translation part. -/
@[ext]
structure M2 (K : Type) where
  m11 : K
  m12 : K
  m21 : K
  m22 : K
  m31 : K
  m32 : K
  deriving DecidableEq

/-- The 4×4 matrix backing `Transform3` (`mat: [[T; 4]; 4]`), with entry
`mIJ` holding `mat[I-1][J-1]`.  Points act as row vectors multiplied on the
left, so the fourth row is the translation part and the fourth column the
projective part. -/
@[ext]
structure M4 (K : Type) where
  m11 : K
  m12 : K
  m13 : K
  m14 : K
  m21 : K
  m22 : K
  m23 : K
  m24 : K
  m31 : K
  m32 : K
  m33 : K
  m34 : K
  m41 : K
  m42 : K
  m43 : K
  m44 : K
  deriving DecidableEq

/-- The local `matmul` of `Mul for Transform2`: product of two affine 3×2
matrices, with the implicit third column `(0,0,1)`. -/
def M2.mul (a b : M2 K) : M2 K :=
  ⟨a.m11 * b.m11 + a.m12 * b.m21, a.m11 * b.m12 + a.m12 * b.m22,
   a.m21 * b.m11 + a.m22 * b.m21, a.m21 * b.m12 + a.m22 * b.m22,
   a.m31 * b.m11 + a.m32 * b.m21 + b.m31, a.m31 * b.m12 + a.m32 * b.m22 + b.m32⟩

/-- The matrix of `Transform2::identity`. -/
def M2.id : M2 K := ⟨1, 0, 0, 1, 0, 0⟩

/-- The local `matmul` of `Mul for Transform3`: full 4×4 matrix product. -/
def M4.mul (a b : M4 K) : M4 K :=
  ⟨a.m11 * b.m11 + a.m12 * b.m21 + a.m13 * b.m31 + a.m14 * b.m41,
   a.m11 * b.m12 + a.m12 * b.m22 + a.m13 * b.m32 + a.m14 * b.m42,
   a.m11 * b.m13 + a.m12 * b.m23 + a.m13 * b.m33 + a.m14 * b.m43,
   a.m11 * b.m14 + a.m12 * b.m24 + a.m13 * b.m34 + a.m14 * b.m44,
   a.m21 * b.m11 + a.m22 * b.m21 + a.m23 * b.m31 + a.m24 * b.m41,
   a.m21 * b.m12 + a.m22 * b.m22 + a.m23 * b.m32 + a.m24 * b.m42,
   a.m21 * b.m13 + a.m22 * b.m23 + a.m23 * b.m33 + a.m24 * b.m43,
   a.m21 * b.m14 + a.m22 * b.m24 + a.m23 * b.m34 + a.m24 * b.m44,
   a.m31 * b.m11 + a.m32 * b.m21 + a.m33 * b.m31 + a.m34 * b.m41,
   a.m31 * b.m12 + a.m32 * b.m22 + a.m33 * b.m32 + a.m34 * b.m42,
   a.m31 * b.m13 + a.m32 * b.m23 + a.m33 * b.m33 + a.m34 * b.m43,
   a.m31 * b.m14 + a.m32 * b.m24 + a.m33 * b.m34 + a.m34 * b.m44,
   a.m41 * b.m11 + a.m42 * b.m21 + a.m43 * b.m31 + a.m44 * b.m41,
   a.m41 * b.m12 + a.m42 * b.m22 + a.m43 * b.m32 + a.m44 * b.m42,
   a.m41 * b.m13 + a.m42 * b.m23 + a.m43 * b.m33 + a.m44 * b.m43,
   a.m41 * b.m14 + a.m42 * b.m24 + a.m43 * b.m34 + a.m44 * b.m44⟩

/-- The matrix of `Transform3::identity`. -/
def M4.id : M4 K := ⟨1, 0, 0, 0, 0, 1, 0, 0, 0, 0, 1, 0, 0, 0, 0, 1⟩

/-- `Transform3::mat_transpose`. -/
def M4.transpose (m : M4 K) : M4 K :=
  ⟨m.m11, m.m21, m.m31, m.m41,
   m.m12, m.m22, m.m32, m.m42,
   m.m13, m.m23, m.m33, m.m43,
   m.m14, m.m24, m.m34, m.m44⟩

/-- `Transform2::determinant`. -/
def M2.det (m : M2 K) : K := m.m11 * m.m22 - m.m12 * m.m21

/-- `Transform3::mat_determinant`: the full cofactor-expansion closed form. -/
def M4.det (m : M4 K) : K :=
  m.m14 * m.m23 * m.m32 * m.m41
  - m.m13 * m.m24 * m.m32 * m.m41
  - m.m14 * m.m22 * m.m33 * m.m41
  + m.m12 * m.m24 * m.m33 * m.m41
  + m.m13 * m.m22 * m.m34 * m.m41
  - m.m12 * m.m23 * m.m34 * m.m41
  - m.m14 * m.m23 * m.m31 * m.m42
  + m.m13 * m.m24 * m.m31 * m.m42
  + m.m14 * m.m21 * m.m33 * m.m42
  - m.m11 * m.m24 * m.m33 * m.m42
  - m.m13 * m.m21 * m.m34 * m.m42
  + m.m11 * m.m23 * m.m34 * m.m42
  + m.m14 * m.m22 * m.m31 * m.m43
  - m.m12 * m.m24 * m.m31 * m.m43
  - m.m14 * m.m21 * m.m32 * m.m43
  + m.m11 * m.m24 * m.m32 * m.m43
  + m.m12 * m.m21 * m.m34 * m.m43
  - m.m11 * m.m22 * m.m34 * m.m43
  - m.m13 * m.m22 * m.m31 * m.m44
  + m.m12 * m.m23 * m.m31 * m.m44
  + m.m13 * m.m21 * m.m32 * m.m44
  - m.m11 * m.m23 * m.m32 * m.m44
  - m.m12 * m.m21 * m.m33 * m.m44
  + m.m11 * m.m22 * m.m33 * m.m44

/-- `Transform2<T, Src, Dst>`: the forward matrix together with the cached
inverse matrix, both written at construction. -/
@[ext]
structure Transform2 (K : Type) where
  mat : M2 K
  mat_inv : M2 K
  deriving DecidableEq

/-- `Transform3<T, Src, Dst>`: the forward matrix together with the cached
inverse matrix, both written at construction. -/
@[ext]
structure Transform3 (K : Type) where
  mat : M4 K
  mat_inv : M4 K
  deriving DecidableEq

/-- `Transform2::try_new`: computes the determinant, fails iff it is exactly
zero, otherwise stores the matrix with its adjugate-formula inverse. -/
def Transform2.try_new (m : M2 K) : Option (Transform2 K) :=
  let det := m.m11 * m.m22 - m.m21 * m.m12
  if det = 0 then none
  else
    let inv_det := 1 / det
    some ⟨m,
      ⟨inv_det * m.m22, inv_det * (0 - m.m12),
       inv_det * (0 - m.m21), inv_det * m.m11,
       inv_det * (m.m21 * m.m32 - m.m22 * m.m31),
       inv_det * (m.m12 * m.m31 - m.m11 * m.m32)⟩⟩

/-- The cofactor closed-form inverse matrix computed by
`Transform3::mat_inverse` in its success branch. -/
def M4.cfInv (m : M4 K) : M4 K :=
  let det := M4.det m
  let inv_det := 1 / det
  ⟨inv_det * (m.m23 * m.m34 * m.m42 - m.m24 * m.m33 * m.m42
                  + m.m24 * m.m32 * m.m43 - m.m22 * m.m34 * m.m43
                  - m.m23 * m.m32 * m.m44 + m.m22 * m.m33 * m.m44),
       inv_det * (m.m14 * m.m33 * m.m42 - m.m13 * m.m34 * m.m42
                  - m.m14 * m.m32 * m.m43 + m.m12 * m.m34 * m.m43
                  + m.m13 * m.m32 * m.m44 - m.m12 * m.m33 * m.m44),
       inv_det * (m.m13 * m.m24 * m.m42 - m.m14 * m.m23 * m.m42
                  + m.m14 * m.m22 * m.m43 - m.m12 * m.m24 * m.m43
                  - m.m13 * m.m22 * m.m44 + m.m12 * m.m23 * m.m44),
       inv_det * (m.m14 * m.m23 * m.m32 - m.m13 * m.m24 * m.m32
                  - m.m14 * m.m22 * m.m33 + m.m12 * m.m24 * m.m33
                  + m.m13 * m.m22 * m.m34 - m.m12 * m.m23 * m.m34),
       inv_det * (m.m24 * m.m33 * m.m41 - m.m23 * m.m34 * m.m41
                  - m.m24 * m.m31 * m.m43 + m.m21 * m.m34 * m.m43
                  + m.m23 * m.m31 * m.m44 - m.m21 * m.m33 * m.m44),
       inv_det * (m.m13 * m.m34 * m.m41 - m.m14 * m.m33 * m.m41
                  + m.m14 * m.m31 * m.m43 - m.m11 * m.m34 * m.m43
                  - m.m13 * m.m31 * m.m44 + m.m11 * m.m33 * m.m44),
       inv_det * (m.m14 * m.m23 * m.m41 - m.m13 * m.m24 * m.m41
                  - m.m14 * m.m21 * m.m43 + m.m11 * m.m24 * m.m43
                  + m.m13 * m.m21 * m.m44 - m.m11 * m.m23 * m.m44),
       inv_det * (m.m13 * m.m24 * m.m31 - m.m14 * m.m23 * m.m31
                  + m.m14 * m.m21 * m.m33 - m.m11 * m.m24 * m.m33
                  - m.m13 * m.m21 * m.m34 + m.m11 * m.m23 * m.m34),
       inv_det * (m.m22 * m.m34 * m.m41 - m.m24 * m.m32 * m.m41
                  + m.m24 * m.m31 * m.m42 - m.m21 * m.m34 * m.m42
                  - m.m22 * m.m31 * m.m44 + m.m21 * m.m32 * m.m44),
       inv_det * (m.m14 * m.m32 * m.m41 - m.m12 * m.m34 * m.m41
                  - m.m14 * m.m31 * m.m42 + m.m11 * m.m34 * m.m42
                  + m.m12 * m.m31 * m.m44 - m.m11 * m.m32 * m.m44),
       inv_det * (m.m12 * m.m24 * m.m41 - m.m14 * m.m22 * m.m41
                  + m.m14 * m.m21 * m.m42 - m.m11 * m.m24 * m.m42
                  - m.m12 * m.m21 * m.m44 + m.m11 * m.m22 * m.m44),
       inv_det * (m.m14 * m.m22 * m.m31 - m.m12 * m.m24 * m.m31
                  - m.m14 * m.m21 * m.m32 + m.m11 * m.m24 * m.m32
                  + m.m12 * m.m21 * m.m34 - m.m11 * m.m22 * m.m34),
       inv_det * (m.m23 * m.m32 * m.m41 - m.m22 * m.m33 * m.m41
                  - m.m23 * m.m31 * m.m42 + m.m21 * m.m33 * m.m42
                  + m.m22 * m.m31 * m.m43 - m.m21 * m.m32 * m.m43),
       inv_det * (m.m12 * m.m33 * m.m41 - m.m13 * m.m32 * m.m41
                  + m.m13 * m.m31 * m.m42 - m.m11 * m.m33 * m.m42
                  - m.m12 * m.m31 * m.m43 + m.m11 * m.m32 * m.m43),
       inv_det * (m.m13 * m.m22 * m.m41 - m.m12 * m.m23 * m.m41
                  - m.m13 * m.m21 * m.m42 + m.m11 * m.m23 * m.m42
                  + m.m12 * m.m21 * m.m43 - m.m11 * m.m22 * m.m43),
       inv_det * (m.m12 * m.m23 * m.m31 - m.m13 * m.m22 * m.m31
                  + m.m13 * m.m21 * m.m32 - m.m11 * m.m23 * m.m32
                  - m.m12 * m.m21 * m.m33 + m.m11 * m.m22 * m.m33)⟩

/-- `Transform3::mat_inverse`: fails iff the determinant is exactly zero,
otherwise returns the cofactor closed-form inverse. -/
def Transform3.mat_inverse (m : M4 K) : Option (M4 K) :=
  if M4.det m = 0 then none
  else some (M4.cfInv m)

/-- `Transform3::try_new`: `mat_inverse` feeding the dual-matrix pair. -/
def Transform3.try_new (m : M4 K) : Option (Transform3 K) :=
  (Transform3.mat_inverse m).map (fun mi => ⟨m, mi⟩)

/-- `Transform2::translation(v)`. -/
def Transform2.translation (vx vy : K) : Transform2 K :=
  ⟨⟨1, 0, 0, 1, vx, vy⟩, ⟨1, 0, 0, 1, 0 - vx, 0 - vy⟩⟩

/-- `Transform2::rotation(theta)`, parameterised by `s = sin theta` and
`c = cos theta` (the only way the angle enters the Rust code). -/
def Transform2.rotation (s c : K) : Transform2 K :=
  ⟨⟨c, s, 0 - s, c, 0, 0⟩, ⟨c, 0 - s, s, c, 0, 0⟩⟩

/-- `Transform2::scale(x, y)`. -/
def Transform2.scale (sx sy : K) : Transform2 K :=
  ⟨⟨sx, 0, 0, sy, 0, 0⟩, ⟨1 / sx, 0, 0, 1 / sy, 0, 0⟩⟩

/-- `Mul for Transform2`: forward matrices compose as `m1 * m2`, inverse
matrices in reverse order `m2_inv * m1_inv`. -/
def Transform2.mul (t1 t2 : Transform2 K) : Transform2 K :=
  ⟨M2.mul t1.mat t2.mat, M2.mul t2.mat_inv t1.mat_inv⟩

/-- `Transformation::inverse` for `Transform2`: swap the cached pair. -/
def Transform2.inverse (t : Transform2 K) : Transform2 K := ⟨t.mat_inv, t.mat⟩

/-- `Transformation::identity` for `Transform2`: `translation(zero)`. -/
def Transform2.identity : Transform2 K := Transform2.translation 0 0

/-- `Transform3::translation(v)`. -/
def Transform3.translation (v : Vector3 K) : Transform3 K :=
  ⟨⟨1, 0, 0, 0,
    0, 1, 0, 0,
    0, 0, 1, 0,
    v.x, v.y, v.z, 1⟩,
   ⟨1, 0, 0, 0,
    0, 1, 0, 0,
    0, 0, 1, 0,
    0 - v.x, 0 - v.y, 0 - v.z, 1⟩⟩

/-- The rotation matrix built by `Transform3::rotation(axis, theta)`, with
`x,y,z` the axis components and `s = sin(theta/2)`, `c = cos(theta/2)` (the
only way the angle enters the Rust code). -/
def Transform3.rotationMat (x y z s c : K) : M4 K :=
  let xx := x * x
  let yy := y * y
  let zz := z * z
  let sc := s * c
  let ss := s * s
  ⟨1 - 2 * (yy + zz) * ss, 2 * (x * y * ss + z * sc), 2 * (x * z * ss - y * sc), 0,
   2 * (x * y * ss - z * sc), 1 - 2 * (xx + zz) * ss, 2 * (y * z * ss + x * sc), 0,
   2 * (x * z * ss + y * sc), 2 * (y * z * ss - x * sc), 1 - 2 * (xx + yy) * ss, 0,
   0, 0, 0, 1⟩

/-- `Transform3::rotation(axis, theta)`: the rotation matrix with its
transpose stored as the cached inverse. -/
def Transform3.rotation (x y z s c : K) : Transform3 K :=
  ⟨Transform3.rotationMat x y z s c, M4.transpose (Transform3.rotationMat x y z s c)⟩

/-- `Transform3::scale(x, y, z)`. -/
def Transform3.scale (sx sy sz : K) : Transform3 K :=
  ⟨⟨sx, 0, 0, 0,
    0, sy, 0, 0,
    0, 0, sz, 0,
    0, 0, 0, 1⟩,
   ⟨1 / sx, 0, 0, 0,
    0, 1 / sy, 0, 0,
    0, 0, 1 / sz, 0,
    0, 0, 0, 1⟩⟩

/-- `Mul for Transform3`: forward matrices compose as `m1 * m2`, inverse
matrices in reverse order `m2_inv * m1_inv`. -/
def Transform3.mul (t1 t2 : Transform3 K) : Transform3 K :=
  ⟨M4.mul t1.mat t2.mat, M4.mul t2.mat_inv t1.mat_inv⟩

/-- `Transformation::inverse` for `Transform3`: swap the cached pair. -/
def Transform3.inverse (t : Transform3 K) : Transform3 K := ⟨t.mat_inv, t.mat⟩

/-- `Transformation::identity` for `Transform3`: `translation(zero)`. -/
def Transform3.identity : Transform3 K := Transform3.translation ⟨0, 0, 0⟩

/-- `Transform3::look_to_rh(eye, dir, up)`, parameterised by the camera
basis it computes: `f = dir.normalize()`, `s = f.cross(up).normalize()`,
`u = s.cross(f)` (the square-root normalisations are inputs here; `eye` is
`eye.to_vector()`).  The Rust code hands the matrix to `Self::new`, which
aborts when `try_new` fails, so the embedding returns the `try_new` option. -/
def Transform3.look_to_rh (eye f s u : Vector3 K) : Option (Transform3 K) :=
  Transform3.try_new
    ⟨s.x, u.x, 0 - f.x, 0,
     s.y, u.y, 0 - f.y, 0,
     s.z, u.z, 0 - f.z, 0,
     0 - eye.dot s, 0 - eye.dot u, 0 - eye.dot f, 1⟩

/-- `Transform3::perspective_lh`, parameterised by `sin_fov = sin(fov_y/2)`
and `cos_fov = cos(fov_y/2)` (the only way the angle enters the code).
Built through `Self::new`, embedded as the `try_new` option. -/
def Transform3.perspective_lh (sin_fov cos_fov aspect_ratio z_near z_far : K) :
    Option (Transform3 K) :=
  let h := cos_fov / sin_fov
  let w := h / aspect_ratio
  let r := z_far / (z_far - z_near)
  Transform3.try_new
    ⟨w, 0, 0, 0,
     0, h, 0, 0,
     0, 0, r, 1,
     0, 0, (0 - r) * z_near, 0⟩

/-- `Transform3::perspective_rh`, parameterised like `perspective_lh`. -/
def Transform3.perspective_rh (sin_fov cos_fov aspect_ratio z_near z_far : K) :
    Option (Transform3 K) :=
  let h := cos_fov / sin_fov
  let w := h / aspect_ratio
  let r := z_far / (z_near - z_far)
  Transform3.try_new
    ⟨w, 0, 0, 0,
     0, h, 0, 0,
     0, 0, r, 0 - 1,
     0, 0, r * z_near, 0⟩

/-- `Transform3::orthographic_lh`.  Built through `Self::new`, embedded as
the `try_new` option. -/
def Transform3.orthographic_lh (left right bottom top near far : K) :
    Option (Transform3 K) :=
  let w := 1 / (right - left)
  let h := 1 / (top - bottom)
  let r := 1 / (far - near)
  Transform3.try_new
    ⟨w + w, 0, 0, 0,
     0, h + h, 0, 0,
     0, 0, r, 0,
     0 - (left + right) * w, 0 - (top + bottom) * h, 0 - r * near, 1⟩

/-- `Transform3::orthographic_rh`. -/
def Transform3.orthographic_rh (left right bottom top near far : K) :
    Option (Transform3 K) :=
  let w := 1 / (right - left)
  let h := 1 / (top - bottom)
  let r := 1 / (near - far)
  Transform3.try_new
    ⟨w + w, 0, 0, 0,
     0, h + h, 0, 0,
     0, 0, r, 0,
     0 - (left + right) * w, 0 - (top + bottom) * h, r * near, 1⟩

/-- Quaternion rotation `Rotation3<T, Src, Dst>`: scalar part `a`, vector
part `(i, j, k)`. -/
@[ext]
structure Rotation3 (K : Type) where
  a : K
  i : K
  j : K
  k : K
  deriving DecidableEq

/-- `Rotation3::new_unchecked(a, i, j, k)`: raw constructor, no
normalisation. -/
def Rotation3.new_unchecked (a i j k : K) : Rotation3 K := ⟨a, i, j, k⟩

/-- `Rotation3::vector_part`: `(i, j, k)`. -/
def Rotation3.vector_part (q : Rotation3 K) : Vector3 K := ⟨q.i, q.j, q.k⟩

/-- `Rotation3::norm_squared`. -/
def Rotation3.norm_squared (q : Rotation3 K) : K :=
  q.a * q.a + q.i * q.i + q.j * q.j + q.k * q.k

/-- The quaternion 4-vector dot product, computed inline by
`Rotation3::slerp`. -/
def Rotation3.dotq (q r : Rotation3 K) : K :=
  q.a * r.a + q.i * r.i + q.j * r.j + q.k * r.k

/-- Private `Rotation3::add`. -/
def Rotation3.addq (q r : Rotation3 K) : Rotation3 K :=
  ⟨q.a + r.a, q.i + r.i, q.j + r.j, q.k + r.k⟩

/-- Private `Rotation3::sub`. -/
def Rotation3.subq (q r : Rotation3 K) : Rotation3 K :=
  ⟨q.a - r.a, q.i - r.i, q.j - r.j, q.k - r.k⟩

/-- Private `Rotation3::mul(factor)`: scale all four components. -/
def Rotation3.mulF (q : Rotation3 K) (f : K) : Rotation3 K :=
  ⟨q.a * f, q.i * f, q.j * f, q.k * f⟩

/-- Componentwise negation `-q`; both `q` and `-q` represent the same
rotation (double cover). -/
def Rotation3.neg (q : Rotation3 K) : Rotation3 K := ⟨-q.a, -q.i, -q.j, -q.k⟩

/-- `Transformation::identity` for `Rotation3`:
`new_unchecked(one, zero, zero, zero)`. -/
def Rotation3.identity : Rotation3 K := ⟨1, 0, 0, 0⟩

/-- `Rotation3::is_normalized`: `norm_squared` within the fixed epsilon
`1e-5` of one. -/
def Rotation3.is_normalized (q : Rotation3 K) : Prop :=
  approxEqEps q.norm_squared 1 (1 / 100000)

/-- `ApproxEq::approx_eq_eps` for `Rotation3`: componentwise approximate
equality against `other`, or against the negation of `other`. -/
def Rotation3.approx_eq_eps (q r : Rotation3 K) (eps : K) : Prop :=
  (approxEqEps q.a r.a eps ∧ approxEqEps q.i r.i eps ∧
   approxEqEps q.j r.j eps ∧ approxEqEps q.k r.k eps) ∨
  (approxEqEps q.a (-r.a) eps ∧ approxEqEps q.i (-r.i) eps ∧
   approxEqEps q.j (-r.j) eps ∧ approxEqEps q.k (-r.k) eps)

/-- `ApproxEq::approx_eq` for `Rotation3` at the default `epsilon()`. -/
def Rotation3.approx_eq (q r : Rotation3 K) : Prop :=
  Rotation3.approx_eq_eps q r scalarEpsilon

/-- `Transform<Point3> for Rotation3`: the doubled-cross-product sandwich
formula, exactly as the componentwise Rust code writes it. -/
def Rotation3.transformPoint (q : Rotation3 K) (p : Point3 K) : Point3 K :=
  let two : K := 1 + 1
  let cross := Vector3.smul (Vector3.cross q.vector_part p.to_vector) two
  ⟨p.x + q.a * cross.x + q.j * cross.z - q.k * cross.y,
   p.y + q.a * cross.y + q.k * cross.x - q.i * cross.z,
   p.z + q.a * cross.z + q.i * cross.y - q.j * cross.x⟩

/-- `Transform<Box3> for Rotation3`: transforms only the `min` and `max`
corners and rebuilds the box from them directly (no re-fit over all eight
corners). -/
def Rotation3.transformBox (q : Rotation3 K) (b : Box3 K) : Box3 K :=
  ⟨q.transformPoint b.min, q.transformPoint b.max⟩

/-- `From<Rotation3> for Transform3`: quaternion-to-matrix conversion, with
the transpose stored as the cached inverse. -/
def Transform3.from_rotation3 (q : Rotation3 K) : Transform3 K :=
  let ii := (q.i + q.i) * q.i
  let ij := (q.j + q.j) * q.i
  let ik := (q.k + q.k) * q.i
  let jj := (q.j + q.j) * q.j
  let jk := (q.k + q.k) * q.j
  let kk := q.k * (q.k + q.k)
  let ai := (q.i + q.i) * q.a
  let aj := (q.j + q.j) * q.a
  let ak := (q.k + q.k) * q.a
  let mat : M4 K :=
    ⟨1 - (jj + kk), ij + ak, ik - aj, 0,
     ij - ak, 1 - (ii + kk), jk + ai, 0,
     ik + aj, jk - ai, 1 - (ii + jj), 0,
     0, 0, 0, 1⟩
  ⟨mat, M4.transpose mat⟩

/-- `Translation2<T, Src, Dst>`. -/
@[ext]
structure Translation2 (K : Type) where
  x : K
  y : K
  deriving DecidableEq

/-- `Translation3<T, Src, Dst>`. -/
@[ext]
structure Translation3 (K : Type) where
  x : K
  y : K
  z : K
  deriving DecidableEq

/-- `Transform<Vector2> for Translation2`: vectors are translation
invariant; the code rebuilds the vector from its own components. -/
def Translation2.transformVector (tr : Translation2 K) (v : Vector2 K) : Vector2 K :=
  ⟨v.x, v.y⟩

/-- `Transform<Vector2<T, Normal>> for Translation2`. -/
def Translation2.transformNormal (tr : Translation2 K) (v : Vector2 K) : Vector2 K :=
  ⟨v.x, v.y⟩

/-- `Transform<Vector3> for Translation3`. -/
def Translation3.transformVector (tr : Translation3 K) (v : Vector3 K) : Vector3 K :=
  ⟨v.x, v.y, v.z⟩

/-- `Transform<Vector3<T, Normal>> for Translation3`. -/
def Translation3.transformNormal (tr : Translation3 K) (v : Vector3 K) : Vector3 K :=
  ⟨v.x, v.y, v.z⟩

/-- `Transform<Vector2> for Transform2`: apply only the linear 2×2 part of
the forward matrix. -/
def Transform2.transformVector (t : Transform2 K) (v : Vector2 K) : Vector2 K :=
  ⟨v.x * t.mat.m11 + v.y * t.mat.m21, v.x * t.mat.m12 + v.y * t.mat.m22⟩

/-- `Transform<Vector2<T, Normal>> for Transform2`: apply the transpose of
the linear part of the cached inverse (the inverse-transpose rule); the
destructuring pattern in the Rust code reads `mat_inv` with the index order
swapped. -/
def Transform2.transformNormal (t : Transform2 K) (n : Vector2 K) : Vector2 K :=
  ⟨n.x * t.mat_inv.m11 + n.y * t.mat_inv.m12,
   n.x * t.mat_inv.m21 + n.y * t.mat_inv.m22⟩

/-- `Transform<Point3> for Transform3`: row vector times the forward
matrix, producing a `HomogeneousVector`. -/
def Transform3.transformPoint (t : Transform3 K) (p : Point3 K) : HomogeneousVector K :=
  ⟨p.x * t.mat.m11 + p.y * t.mat.m21 + p.z * t.mat.m31 + t.mat.m41,
   p.x * t.mat.m12 + p.y * t.mat.m22 + p.z * t.mat.m32 + t.mat.m42,
   p.x * t.mat.m13 + p.y * t.mat.m23 + p.z * t.mat.m33 + t.mat.m43,
   p.x * t.mat.m14 + p.y * t.mat.m24 + p.z * t.mat.m34 + t.mat.m44⟩

/-- `Transform<Vector3> for Transform3`: only the linear 3×3 part of the
forward matrix. -/
def Transform3.transformVector (t : Transform3 K) (v : Vector3 K) : Vector3 K :=
  ⟨v.x * t.mat.m11 + v.y * t.mat.m21 + v.z * t.mat.m31,
   v.x * t.mat.m12 + v.y * t.mat.m22 + v.z * t.mat.m32,
   v.x * t.mat.m13 + v.y * t.mat.m23 + v.z * t.mat.m33⟩

/-- `Transform<Vector3<T, Normal>> for Transform3`: the rows of the cached
inverse dotted with the normal (inverse-transpose rule). -/
def Transform3.transformNormal (t : Transform3 K) (n : Vector3 K) : Vector3 K :=
  ⟨n.x * t.mat_inv.m11 + n.y * t.mat_inv.m12 + n.z * t.mat_inv.m13,
   n.x * t.mat_inv.m21 + n.y * t.mat_inv.m22 + n.z * t.mat_inv.m23,
   n.x * t.mat_inv.m31 + n.y * t.mat_inv.m32 + n.z * t.mat_inv.m33⟩

/-- `TryFrom<HomogeneousVector> for Point3`: succeeds iff `w > 0`,
multiplying the components by `1/w`. -/
def homogeneousToPoint3 (v : HomogeneousVector K) : Except Unit (Point3 K) :=
  if 0 < v.w then
    let w_inv := 1 / v.w
    Except.ok ⟨v.x * w_inv, v.y * w_inv, v.z * w_inv⟩
  else Except.error ()

/-- `TryFrom<HomogeneousVector> for Point2`: succeeds iff `w > 0`. -/
def homogeneousToPoint2 (v : HomogeneousVector K) : Except Unit (Point2 K) :=
  if 0 < v.w then
    let w_inv := 1 / v.w
    Except.ok ⟨v.x * w_inv, v.y * w_inv⟩
  else Except.error ()

/-- `Transform3::transform_point3`: point application followed by the
fallible homogeneous-to-Euclidean conversion. -/
def Transform3.transform_point3 (t : Transform3 K) (p : Point3 K) :
    Except Unit (Point3 K) :=
  homogeneousToPoint3 (t.transformPoint p)

/-- The accumulation loop of `Box3::try_from_points` after the first point:
componentwise min/max folding, short-circuiting on the first error. -/
def Box3.fitLoop (mn mx : Point3 K) : List (Except Unit (Point3 K)) → Except Unit (Box3 K)
  | [] => Except.ok ⟨mn, mx⟩
  | Except.error _ :: _ => Except.error ()
  | Except.ok p :: rest => Box3.fitLoop (Point3.pmin p mn) (Point3.pmax p mx) rest

/-- `Box3::try_from_points`: empty input gives `Box3::empty()`; otherwise
the first point seeds both corners and the loop folds the rest. -/
def Box3.try_from_points : List (Except Unit (Point3 K)) → Except Unit (Box3 K)
  | [] => Except.ok ⟨⟨0, 0, 0⟩, ⟨0, 0, 0⟩⟩
  | Except.error _ :: _ => Except.error ()
  | Except.ok p :: rest => Box3.fitLoop p p rest

/-- The eight corners of a `Box3` in the order `Transform<Box3> for
Transform3` enumerates them. -/
def Box3.corners (b : Box3 K) : List (Point3 K) :=
  [b.min,
   ⟨b.min.x, b.min.y, b.max.z⟩,
   ⟨b.min.x, b.max.y, b.min.z⟩,
   ⟨b.min.x, b.max.y, b.max.z⟩,
   ⟨b.max.x, b.min.y, b.min.z⟩,
   ⟨b.max.x, b.min.y, b.max.z⟩,
   ⟨b.max.x, b.max.y, b.min.z⟩,
   b.max]

/-- `Transform<Box3> for Transform3`: transform all eight corners, re-fit
with `try_from_points`, and turn the result into an option with `.ok()`. -/
def Transform3.transformBox (t : Transform3 K) (b : Box3 K) : Option (Box3 K) :=
  match Box3.try_from_points ((Box3.corners b).map (fun p => t.transform_point3 p)) with
  | Except.ok bx => some bx
  | Except.error _ => none

/-- `Vector3::length` over the reals: `length_squared().sqrt()`. -/
noncomputable def Vector3.length (v : Vector3 ℝ) : ℝ :=
  Real.sqrt v.length_squared

/-- `Vector3::normalize` over the reals: `self / self.length()`
(componentwise division). -/
noncomputable def Vector3.normalize (v : Vector3 ℝ) : Vector3 ℝ :=
  ⟨v.x / v.length, v.y / v.length, v.z / v.length⟩

/-- `Rotation3::norm` over the reals. -/
noncomputable def Rotation3.norm (q : Rotation3 ℝ) : ℝ :=
  Real.sqrt q.norm_squared

/-- `Rotation3::normalize` over the reals: `self.mul(one / self.norm())`.
On a zero-norm quaternion the Rust code divides by zero and propagates
NaN (the spec's error taxonomy calls this path unguarded and undefined);
this total embedding returns the zero quaternion there because Lean's
division is total, so the NaN path is modelled separately and explicitly
by `normalizeChecked`, and theorems about unit-norm results must stay away
from the zero-norm input. -/
noncomputable def Rotation3.normalize (q : Rotation3 ℝ) : Rotation3 ℝ :=
  q.mulF (1 / q.norm)

/-- Checked variant of `Rotation3::normalize`: `none` models the NaN
result the Rust code produces when it divides by a zero norm (1/0 = inf,
0 * inf = NaN), and otherwise the result agrees with the total
`normalize`.  This is the `Option`-embedding of the partial float
computation. -/
noncomputable def Rotation3.normalizeChecked (q : Rotation3 ℝ) :
    Option (Rotation3 ℝ) :=
  if q.norm = 0 then none else some q.normalize

/-- `Rotation3::around_axis(axis, angle)`: normalizes the axis, then calls
`new_unchecked(axis.x * sin, axis.y * sin, axis.z * sin, cos)` with the
half-angle sine and cosine — note the argument order against
`new_unchecked(a, i, j, k)`. -/
noncomputable def Rotation3.around_axis (axis : Vector3 ℝ) (theta : ℝ) : Rotation3 ℝ :=
  let n := axis.normalize
  let s := Real.sin (theta / 2)
  let c := Real.cos (theta / 2)
  Rotation3.new_unchecked (n.x * s) (n.y * s) (n.z * s) c

/-- `Rotation3::lerp`: linear blend of the components, renormalised. -/
noncomputable def Rotation3.lerp (q r : Rotation3 ℝ) (t : ℝ) : Rotation3 ℝ :=
  ((q.mulF (1 - t)).addq (r.mulF t)).normalize

/-- `Rotation3::slerp`: near-parallel fallback to `lerp`, shorter-arc sign
flip when the dot product is negative, clamp of the dot product to at most
one, then the spherical interpolation formula. -/
noncomputable def Rotation3.slerp (r1 r2 : Rotation3 ℝ) (t : ℝ) : Rotation3 ℝ :=
  let dot := Rotation3.dotq r1 r2
  if approxEqEps dot 1 scalarEpsilon then r1.lerp r2 t
  else
    let r2a := if dot < 0 then r2.mulF (-1) else r2
    let dot1 := if dot < 0 then -dot else dot
    let dot2 := min dot1 1
    let theta := Real.arccos dot2 * t
    let r3 := (r2a.subq (r1.mulF dot2)).normalize
    (r1.mulF (Real.cos theta)).addq (r3.mulF (Real.sin theta))

/-- Checked variant of `Rotation3::slerp`: the same computation as `slerp`,
with the inner normalisation's NaN path made explicit through
`normalizeChecked` — in the Rust code a NaN produced by normalizing a
zero quaternion propagates through every later addition and
multiplication (including `NaN * sin(0) = NaN`), so a `none` from the
inner normalize is a `none` result.  Outside the zero-norm input this
agrees with the total `slerp` (proved under the amended C8's
hypotheses). -/
noncomputable def Rotation3.slerpChecked (r1 r2 : Rotation3 ℝ) (t : ℝ) :
    Option (Rotation3 ℝ) :=
  let dot := Rotation3.dotq r1 r2
  if approxEqEps dot 1 scalarEpsilon then
    ((r1.mulF (1 - t)).addq (r2.mulF t)).normalizeChecked
  else
    let r2a := if dot < 0 then r2.mulF (-1) else r2
    let dot1 := if dot < 0 then -dot else dot
    let dot2 := min dot1 1
    let theta := Real.arccos dot2 * t
    Option.map
      (fun r3 => (r1.mulF (Real.cos theta)).addq (r3.mulF (Real.sin theta)))
      ((r2a.subq (r1.mulF dot2)).normalizeChecked)

/-- The dual-matrix cache invariant for `Transform2`: the forward and cached
inverse matrices multiply to the identity on both sides (affine 3×2
product). -/
def Transform2.Good (t : Transform2 K) : Prop :=
  M2.mul t.mat t.mat_inv = M2.id ∧ M2.mul t.mat_inv t.mat = M2.id

/-- The dual-matrix cache invariant for `Transform3`. -/
def Transform3.Good (t : Transform3 K) : Prop :=
  M4.mul t.mat t.mat_inv = M4.id ∧ M4.mul t.mat_inv t.mat = M4.id

/-- `Transform2` values reachable through the public constructors and
closed under composition and `inverse()`.  Constructor preconditions:
`rotation` carries `sin^2 + cos^2 = 1` (the angle is finite), `scale`
carries nonzero factors, `try_new` carries its own success.  The `From`
conversions from `Translation2`, `Rotation2` and `Scale` are exactly
`translation` / `rotation` / `scale`. -/
inductive Reachable2 : Transform2 K → Prop where
  | try_new (m : M2 K) (t : Transform2 K) :
      Transform2.try_new m = some t → Reachable2 t
  | translation (vx vy : K) : Reachable2 (Transform2.translation vx vy)
  | rotation (s c : K) : s * s + c * c = 1 → Reachable2 (Transform2.rotation s c)
  | scale (sx sy : K) : sx ≠ 0 → sy ≠ 0 → Reachable2 (Transform2.scale sx sy)
  | identity : Reachable2 Transform2.identity
  | mul (t1 t2 : Transform2 K) :
      Reachable2 t1 → Reachable2 t2 → Reachable2 (Transform2.mul t1 t2)
  | inverse (t : Transform2 K) : Reachable2 t → Reachable2 (Transform2.inverse t)

/-- `Transform3` values reachable through the public constructors and
closed under composition and `inverse()`.  Preconditions: `rotation`
carries a unit axis and `sin^2 + cos^2 = 1`; `scale` carries nonzero
factors; `from_rotation3` carries a unit quaternion; the camera and
projection builders go through `Self::new`, so well-formed parameters are
expressed as success of the underlying `try_new`. -/
inductive Reachable3 : Transform3 K → Prop where
  | try_new (m : M4 K) (t : Transform3 K) :
      Transform3.try_new m = some t → Reachable3 t
  | translation (v : Vector3 K) : Reachable3 (Transform3.translation v)
  | rotation (x y z s c : K) : x * x + y * y + z * z = 1 → s * s + c * c = 1 →
      Reachable3 (Transform3.rotation x y z s c)
  | scale (sx sy sz : K) : sx ≠ 0 → sy ≠ 0 → sz ≠ 0 →
      Reachable3 (Transform3.scale sx sy sz)
  | from_rotation3 (q : Rotation3 K) : q.norm_squared = 1 →
      Reachable3 (Transform3.from_rotation3 q)
  | look_to_rh (eye f s u : Vector3 K) (t : Transform3 K) :
      Transform3.look_to_rh eye f s u = some t → Reachable3 t
  | perspective_lh (sf cf ar zn zf : K) (t : Transform3 K) :
      Transform3.perspective_lh sf cf ar zn zf = some t → Reachable3 t
  | perspective_rh (sf cf ar zn zf : K) (t : Transform3 K) :
      Transform3.perspective_rh sf cf ar zn zf = some t → Reachable3 t
  | orthographic_lh (left right bottom top near far : K) (t : Transform3 K) :
      Transform3.orthographic_lh left right bottom top near far = some t → Reachable3 t
  | orthographic_rh (left right bottom top near far : K) (t : Transform3 K) :
      Transform3.orthographic_rh left right bottom top near far = some t → Reachable3 t
  | identity : Reachable3 Transform3.identity
  | mul (t1 t2 : Transform3 K) :
      Reachable3 t1 → Reachable3 t2 → Reachable3 (Transform3.mul t1 t2)
  | inverse (t : Transform3 K) : Reachable3 t → Reachable3 (Transform3.inverse t)

/-- The common quaternion-derived rotation matrix shape shared by
`Transform3::rotation` (at `a = cos`, vector part `axis * sin`) and
`From<Rotation3> for Transform3`; used to factor the orthogonality
proofs. -/
def M4.ofQuat (a i j k : K) : M4 K :=
  ⟨1 - 2 * (j * j + k * k), 2 * (i * j + a * k), 2 * (i * k - a * j), 0,
   2 * (i * j - a * k), 1 - 2 * (i * i + k * k), 2 * (j * k + a * i), 0,
   2 * (i * k + a * j), 2 * (j * k - a * i), 1 - 2 * (i * i + j * j), 0,
   0, 0, 0, 1⟩

/-- The Euclidean image of a point under an affine `Transform3` (last
matrix column `(0,0,0,1)`): the row-vector product without the projective
divide.  Agrees with `transform_point3` on affine transforms. -/
def Transform3.affineImage (t : Transform3 K) (p : Point3 K) : Point3 K :=
  ⟨p.x * t.mat.m11 + p.y * t.mat.m21 + p.z * t.mat.m31 + t.mat.m41,
   p.x * t.mat.m12 + p.y * t.mat.m22 + p.z * t.mat.m32 + t.mat.m42,
   p.x * t.mat.m13 + p.y * t.mat.m23 + p.z * t.mat.m33 + t.mat.m43⟩

/-- Componentwise-min fold over a point list, as the `from_points` loop
performs it (`min = point.min(min)`). -/
def Point3.foldMin (ps : List (Point3 K)) (mn : Point3 K) : Point3 K :=
  ps.foldl (fun acc p => Point3.pmin p acc) mn

/-- Componentwise-max fold over a point list. -/
def Point3.foldMax (ps : List (Point3 K)) (mx : Point3 K) : Point3 K :=
  ps.foldl (fun acc p => Point3.pmax p acc) mx

/-- `Box3::from_points` on an always-successful point list: seed both
corners with the first point and fold min/max over the rest. -/
def Box3.fitPoints (ps : List (Point3 K)) : Box3 K :=
  match ps with
  | [] => ⟨⟨0, 0, 0⟩, ⟨0, 0, 0⟩⟩
  | p :: rest => ⟨Point3.foldMin rest p, Point3.foldMax rest p⟩

/-- The tight axis-aligned fit of the images of the eight corners of a box
under an affine `Transform3`. -/
def Transform3.tightFit (t : Transform3 K) (b : Box3 K) : Box3 K :=
  Box3.fitPoints ((Box3.corners b).map (fun p => t.affineImage p))

/-! ### Helper lemmas: 2D matrix algebra -/

theorem M2.mul2_id_left (a : M2 K) : M2.mul M2.id a = a := by
  simp only [M2.mul, M2.id]
  ext <;> ring

theorem M2.mul2_id_right (a : M2 K) : M2.mul a M2.id = a := by
  simp only [M2.mul, M2.id]
  ext <;> ring

theorem M2.mul2_assoc (a b c : M2 K) :
    M2.mul (M2.mul a b) c = M2.mul a (M2.mul b c) := by
  simp only [M2.mul]
  ext <;> ring

theorem Transform2.try_new2_eq_none (m : M2 K) :
    Transform2.try_new m = none ↔ m.m11 * m.m22 - m.m21 * m.m12 = 0 := by
  by_cases h : m.m11 * m.m22 - m.m21 * m.m12 = 0 <;>
    simp [Transform2.try_new, h]

theorem Transform2.try_new2_good (m : M2 K) (t : Transform2 K)
    (h : Transform2.try_new m = some t) : t.Good := by
  by_cases hd : m.m11 * m.m22 - m.m21 * m.m12 = 0
  · simp [Transform2.try_new, hd] at h
  · simp only [Transform2.try_new, hd, if_neg, if_false] at h
    obtain rfl := (Option.some.injEq _ _).mp h
    constructor <;>
      · simp only [M2.mul, M2.id]
        ext <;> field_simp <;> ring

theorem Transform2.translation2_good (vx vy : K) :
    (Transform2.translation vx vy).Good := by
  constructor <;>
    · simp only [Transform2.translation, M2.mul, M2.id]
      ext <;> ring

theorem Transform2.rotation2_good (s c : K) (h : s * s + c * c = 1) :
    (Transform2.rotation s c).Good := by
  constructor <;>
    · simp only [Transform2.rotation, M2.mul, M2.id]
      ext <;> first
        | ring1
        | linear_combination h

theorem Transform2.scale2_good (sx sy : K) (hx : sx ≠ 0) (hy : sy ≠ 0) :
    (Transform2.scale sx sy).Good := by
  constructor <;>
    · simp only [Transform2.scale, M2.mul, M2.id]
      ext <;> field_simp

theorem Transform2.mul2_good (t1 t2 : Transform2 K)
    (h1 : t1.Good) (h2 : t2.Good) : (Transform2.mul t1 t2).Good := by
  obtain ⟨h1l, h1r⟩ := h1
  obtain ⟨h2l, h2r⟩ := h2
  constructor
  · show M2.mul (M2.mul t1.mat t2.mat) (M2.mul t2.mat_inv t1.mat_inv) = M2.id
    rw [M2.mul2_assoc, ← M2.mul2_assoc t2.mat, h2l, M2.mul2_id_left, h1l]
  · show M2.mul (M2.mul t2.mat_inv t1.mat_inv) (M2.mul t1.mat t2.mat) = M2.id
    rw [M2.mul2_assoc, ← M2.mul2_assoc t1.mat_inv, h1r, M2.mul2_id_left, h2r]

theorem Transform2.inverse2_good (t : Transform2 K) (h : t.Good) :
    (Transform2.inverse t).Good :=
  ⟨h.2, h.1⟩

theorem Reachable2.good2 (t : Transform2 K) (h : Reachable2 t) : t.Good := by
  induction h with
  | try_new m t hm => exact Transform2.try_new2_good m t hm
  | translation vx vy => exact Transform2.translation2_good vx vy
  | rotation s c hsc => exact Transform2.rotation2_good s c hsc
  | scale sx sy hx hy => exact Transform2.scale2_good sx sy hx hy
  | identity => exact Transform2.translation2_good 0 0
  | mul t1 t2 _ _ ih1 ih2 => exact Transform2.mul2_good t1 t2 ih1 ih2
  | inverse t _ ih => exact Transform2.inverse2_good t ih

/-! ### Helper lemmas: 4×4 matrix algebra -/

theorem M4.mul4_id_left (a : M4 K) : M4.mul M4.id a = a := by
  simp only [M4.mul, M4.id]
  ext <;> ring

theorem M4.mul4_id_right (a : M4 K) : M4.mul a M4.id = a := by
  simp only [M4.mul, M4.id]
  ext <;> ring

theorem M4.mul4_assoc (a b c : M4 K) :
    M4.mul (M4.mul a b) c = M4.mul a (M4.mul b c) := by
  simp only [M4.mul]
  ext <;> ring

theorem Transform3.mat_inverse_eq_none (m : M4 K) :
    Transform3.mat_inverse m = none ↔ M4.det m = 0 := by
  by_cases h : M4.det m = 0 <;> simp [Transform3.mat_inverse, h]

theorem Transform3.try_new3_eq_none (m : M4 K) :
    Transform3.try_new m = none ↔ M4.det m = 0 := by
  by_cases h : M4.det m = 0 <;>
    simp [Transform3.try_new, Transform3.mat_inverse, h]

set_option maxHeartbeats 2000000 in
theorem M4.mul_cfInv (m : M4 K) (hd : M4.det m ≠ 0) :
    M4.mul m (M4.cfInv m) = M4.id := by
  unfold M4.det at hd
  simp only [M4.mul, M4.cfInv, M4.id, M4.det]
  ext <;> field_simp <;> ring

set_option maxHeartbeats 2000000 in
theorem M4.cfInv_mul (m : M4 K) (hd : M4.det m ≠ 0) :
    M4.mul (M4.cfInv m) m = M4.id := by
  unfold M4.det at hd
  simp only [M4.mul, M4.cfInv, M4.id, M4.det]
  ext <;> field_simp <;> ring

theorem Transform3.try_new3_good (m : M4 K) (t : Transform3 K)
    (h : Transform3.try_new m = some t) : t.Good := by
  by_cases hd : M4.det m = 0
  · simp [Transform3.try_new, Transform3.mat_inverse, hd] at h
  · simp only [Transform3.try_new, Transform3.mat_inverse, hd, if_neg,
      if_false, Option.map_some'] at h
    obtain rfl := (Option.some.injEq _ _).mp h
    exact ⟨M4.mul_cfInv m hd, M4.cfInv_mul m hd⟩

set_option maxHeartbeats 1000000 in
theorem M4.ofQuat_mul_transpose (a i j k : K)
    (hN : a * a + i * i + j * j + k * k = 1) :
    M4.mul (M4.ofQuat a i j k) (M4.transpose (M4.ofQuat a i j k)) = M4.id := by
  simp only [M4.mul, M4.transpose, M4.ofQuat, M4.id]
  ext <;> first
    | ring1
    | linear_combination (4 * (j * j + k * k)) * hN
    | linear_combination (4 * (i * i + k * k)) * hN
    | linear_combination (4 * (i * i + j * j)) * hN
    | linear_combination (-4 * (i * j)) * hN
    | linear_combination (-4 * (i * k)) * hN
    | linear_combination (-4 * (j * k)) * hN

theorem M4.transpose_ofQuat (a i j k : K) :
    M4.transpose (M4.ofQuat a i j k) = M4.ofQuat (-a) i j k := by
  simp only [M4.transpose, M4.ofQuat]
  ext <;> ring

theorem M4.transpose_ofQuat_mul (a i j k : K)
    (hN : a * a + i * i + j * j + k * k = 1) :
    M4.mul (M4.transpose (M4.ofQuat a i j k)) (M4.ofQuat a i j k) = M4.id := by
  have h2 : M4.ofQuat a i j k = M4.transpose (M4.ofQuat (-a) i j k) := by
    rw [M4.transpose_ofQuat, neg_neg]
  rw [M4.transpose_ofQuat, h2, M4.ofQuat_mul_transpose]
  linear_combination hN

theorem Transform3.rotationMat_eq (x y z s c : K) :
    Transform3.rotationMat x y z s c = M4.ofQuat c (x * s) (y * s) (z * s) := by
  simp only [Transform3.rotationMat, M4.ofQuat]
  ext <;> ring

theorem Transform3.rotation3_good (x y z s c : K)
    (hx : x * x + y * y + z * z = 1) (hs : s * s + c * c = 1) :
    (Transform3.rotation x y z s c).Good := by
  have hN : c * c + x * s * (x * s) + y * s * (y * s) + z * s * (z * s) = 1 := by
    linear_combination (s * s) * hx + hs
  refine ⟨?_, ?_⟩
  · show M4.mul (Transform3.rotationMat x y z s c)
      (M4.transpose (Transform3.rotationMat x y z s c)) = M4.id
    rw [Transform3.rotationMat_eq]
    exact M4.ofQuat_mul_transpose _ _ _ _ hN
  · show M4.mul (M4.transpose (Transform3.rotationMat x y z s c))
      (Transform3.rotationMat x y z s c) = M4.id
    rw [Transform3.rotationMat_eq]
    exact M4.transpose_ofQuat_mul _ _ _ _ hN

theorem Transform3.from_rotation3_eq (q : Rotation3 K) :
    Transform3.from_rotation3 q =
      ⟨M4.ofQuat q.a q.i q.j q.k, M4.transpose (M4.ofQuat q.a q.i q.j q.k)⟩ := by
  simp only [Transform3.from_rotation3, M4.ofQuat, M4.transpose]
  ext <;> ring

theorem Transform3.from_rotation3_good (q : Rotation3 K)
    (hN : q.norm_squared = 1) : (Transform3.from_rotation3 q).Good := by
  rw [Rotation3.norm_squared] at hN
  rw [Transform3.from_rotation3_eq]
  exact ⟨M4.ofQuat_mul_transpose _ _ _ _ hN, M4.transpose_ofQuat_mul _ _ _ _ hN⟩

theorem Transform3.translation3_good (v : Vector3 K) :
    (Transform3.translation v).Good := by
  constructor <;>
    · simp only [Transform3.translation, M4.mul, M4.id]
      ext <;> ring

theorem Transform3.scale3_good (sx sy sz : K)
    (hx : sx ≠ 0) (hy : sy ≠ 0) (hz : sz ≠ 0) :
    (Transform3.scale sx sy sz).Good := by
  constructor <;>
    · simp only [Transform3.scale, M4.mul, M4.id]
      ext <;> field_simp

theorem Transform3.mul3_good (t1 t2 : Transform3 K)
    (h1 : t1.Good) (h2 : t2.Good) : (Transform3.mul t1 t2).Good := by
  obtain ⟨h1l, h1r⟩ := h1
  obtain ⟨h2l, h2r⟩ := h2
  constructor
  · show M4.mul (M4.mul t1.mat t2.mat) (M4.mul t2.mat_inv t1.mat_inv) = M4.id
    rw [M4.mul4_assoc, ← M4.mul4_assoc t2.mat, h2l, M4.mul4_id_left, h1l]
  · show M4.mul (M4.mul t2.mat_inv t1.mat_inv) (M4.mul t1.mat t2.mat) = M4.id
    rw [M4.mul4_assoc, ← M4.mul4_assoc t1.mat_inv, h1r, M4.mul4_id_left, h2r]

theorem Transform3.inverse3_good (t : Transform3 K) (h : t.Good) :
    (Transform3.inverse t).Good :=
  ⟨h.2, h.1⟩

theorem Reachable3.good3 (t : Transform3 K) (h : Reachable3 t) : t.Good := by
  induction h with
  | try_new m t hm => exact Transform3.try_new3_good m t hm
  | translation v => exact Transform3.translation3_good v
  | rotation x y z s c hx hs => exact Transform3.rotation3_good x y z s c hx hs
  | scale sx sy sz hx hy hz => exact Transform3.scale3_good sx sy sz hx hy hz
  | from_rotation3 q hq => exact Transform3.from_rotation3_good q hq
  | look_to_rh eye f s u t ht => exact Transform3.try_new3_good _ t ht
  | perspective_lh sf cf ar zn zf t ht => exact Transform3.try_new3_good _ t ht
  | perspective_rh sf cf ar zn zf t ht => exact Transform3.try_new3_good _ t ht
  | orthographic_lh l r b tp n f t ht => exact Transform3.try_new3_good _ t ht
  | orthographic_rh l r b tp n f t ht => exact Transform3.try_new3_good _ t ht
  | identity => exact Transform3.translation3_good ⟨0, 0, 0⟩
  | mul t1 t2 _ _ ih1 ih2 => exact Transform3.mul3_good t1 t2 ih1 ih2
  | inverse t _ ih => exact Transform3.inverse3_good t ih

/-! ### Helper lemmas: affine point transformation -/

theorem Transform3.transform_point3_affine (t : Transform3 K) (p : Point3 K)
    (h14 : t.mat.m14 = 0) (h24 : t.mat.m24 = 0) (h34 : t.mat.m34 = 0)
    (h44 : t.mat.m44 = 1) :
    t.transform_point3 p = Except.ok (t.affineImage p) := by
  have hw : (t.transformPoint p).w = 1 := by
    simp [Transform3.transformPoint, h14, h24, h34, h44]
  rw [Transform3.transform_point3, homogeneousToPoint3]
  rw [hw, if_pos zero_lt_one]
  refine congrArg Except.ok ?_
  ext <;> simp [Transform3.transformPoint, Transform3.affineImage]

theorem Transform3.inv_affine (t : Transform3 K)
    (hR : M4.mul t.mat_inv t.mat = M4.id)
    (h14 : t.mat.m14 = 0) (h24 : t.mat.m24 = 0) (h34 : t.mat.m34 = 0)
    (h44 : t.mat.m44 = 1) :
    t.mat_inv.m14 = 0 ∧ t.mat_inv.m24 = 0 ∧ t.mat_inv.m34 = 0 ∧
      t.mat_inv.m44 = 1 := by
  have e1 := congrArg M4.m14 hR
  have e2 := congrArg M4.m24 hR
  have e3 := congrArg M4.m34 hR
  have e4 := congrArg M4.m44 hR
  simp only [M4.mul, M4.id] at e1 e2 e3 e4
  rw [h14, h24, h34, h44] at e1 e2 e3 e4
  refine ⟨?_, ?_, ?_, ?_⟩ <;> linarith [e1, e2, e3, e4]

/-! ### Claim theorems -/

/-- Claim C1: for every `Transform2` and `Transform3` value reachable
through the public constructors (`try_new`/`new`, `translation`,
`rotation`, `scale`, the look-at and projection builders, the `From`
conversions) and closed under composition (`Mul`) and `inverse()`, the
cached field `mat_inv` is the exact algebraic inverse of `mat`: their
product is the identity matrix, under exact arithmetic and the
constructors' preconditions. -/
theorem C1_cached_inverse_invariant (K : Type) [LinearOrderedField K] :
    (∀ t : Transform2 K, Reachable2 t → M2.mul t.mat t.mat_inv = M2.id) ∧
    (∀ t : Transform3 K, Reachable3 t → M4.mul t.mat t.mat_inv = M4.id) :=
  ⟨fun t h => (Reachable2.good2 t h).1, fun t h => (Reachable3.good3 t h).1⟩

/-- Witness for C1: the cache invariant evaluated at the concrete
reachable transform `Transform3::translation((1,2,3))` over ℚ. -/
theorem C1_cached_inverse_invariant_witness :
    M4.mul (Transform3.translation (⟨1, 2, 3⟩ : Vector3 ℚ)).mat
      (Transform3.translation (⟨1, 2, 3⟩ : Vector3 ℚ)).mat_inv = M4.id :=
  (C1_cached_inverse_invariant ℚ).2 _ (Reachable3.translation ⟨1, 2, 3⟩)

/-- Claim C5: for all composable transforms, `(A * B).inverse()` equals
`B.inverse() * A.inverse()`; with the dual-matrix cache this holds exactly,
because the composed inverse matrix is computed as `mat2_inv * mat1_inv`
rather than by re-inversion. -/
theorem C5_inverse_of_product (K : Type) [LinearOrderedField K] :
    (∀ A B : Transform2 K,
      Transform2.inverse (Transform2.mul A B) =
        Transform2.mul (Transform2.inverse B) (Transform2.inverse A)) ∧
    (∀ A B : Transform3 K,
      Transform3.inverse (Transform3.mul A B) =
        Transform3.mul (Transform3.inverse B) (Transform3.inverse A)) :=
  ⟨fun A B => rfl, fun A B => rfl⟩

/-- Claim C6: `try_new` returns none exactly when the determinant is zero
(no epsilon tolerance); the degenerate 2D scale matrix
`[[0,0],[0,1],[0,0]]` is rejected; every matrix with nonzero determinant is
accepted and the accepted transform's cached inverse satisfies
`mat * mat_inv = identity`. -/
theorem C6_try_new_iff_det_zero (K : Type) [LinearOrderedField K] :
    (∀ m : M2 K, Transform2.try_new m = none ↔ M2.det m = 0) ∧
    (∀ m : M4 K, Transform3.try_new m = none ↔ M4.det m = 0) ∧
    Transform2.try_new (⟨0, 0, 0, 1, 0, 0⟩ : M2 K) = none ∧
    (∀ m : M2 K, M2.det m ≠ 0 →
      ∃ t, Transform2.try_new m = some t ∧ M2.mul t.mat t.mat_inv = M2.id) ∧
    (∀ m : M4 K, M4.det m ≠ 0 →
      ∃ t, Transform3.try_new m = some t ∧ M4.mul t.mat t.mat_inv = M4.id) := by
  have hdet2 : ∀ m : M2 K, Transform2.try_new m = none ↔ M2.det m = 0 := by
    intro m
    refine (Transform2.try_new2_eq_none m).trans ?_
    constructor <;> intro h <;> · rw [M2.det] at *; linarith [h]
  refine ⟨hdet2, Transform3.try_new3_eq_none, ?_, ?_, ?_⟩
  · exact (hdet2 _).mpr (by norm_num [M2.det])
  · intro m hm
    rcases h : Transform2.try_new m with _ | t
    · exact absurd ((hdet2 m).mp h) hm
    · exact ⟨t, rfl, (Transform2.try_new2_good m t h).1⟩
  · intro m hm
    rcases h : Transform3.try_new m with _ | t
    · exact absurd ((Transform3.try_new3_eq_none m).mp h) hm
    · exact ⟨t, rfl, (Transform3.try_new3_good m t h).1⟩

/-- Witness for C6: the degenerate scale matrix `[[0,0],[0,1],[0,0]]` over
ℚ is rejected by `try_new`, by the determinant criterion. -/
theorem C6_try_new_iff_det_zero_witness :
    Transform2.try_new (⟨0, 0, 0, 1, 0, 0⟩ : M2 ℚ) = none :=
  ((C6_try_new_iff_det_zero ℚ).1 _).mpr (by norm_num [M2.det])

/-- Claim C9: transforming a vector or a normal by a pure translation
returns it unchanged, for `Translation2`/`Translation3` and for the matrix
forms `Transform2::translation` / `Transform3::translation`. -/
theorem C9_translation_fixes_vectors (K : Type) [LinearOrderedField K] :
    (∀ (tr : Translation2 K) (v : Vector2 K), tr.transformVector v = v) ∧
    (∀ (tr : Translation2 K) (n : Vector2 K), tr.transformNormal n = n) ∧
    (∀ (tr : Translation3 K) (v : Vector3 K), tr.transformVector v = v) ∧
    (∀ (tr : Translation3 K) (n : Vector3 K), tr.transformNormal n = n) ∧
    (∀ (ux uy : K) (v : Vector2 K),
      (Transform2.translation ux uy).transformVector v = v) ∧
    (∀ (ux uy : K) (n : Vector2 K),
      (Transform2.translation ux uy).transformNormal n = n) ∧
    (∀ (u v : Vector3 K), (Transform3.translation u).transformVector v = v) ∧
    (∀ (u n : Vector3 K), (Transform3.translation u).transformNormal n = n) := by
  refine ⟨fun tr v => rfl, fun tr n => rfl, fun tr v => rfl, fun tr n => rfl,
    ?_, ?_, ?_, ?_⟩
  · intro ux uy v
    ext <;> simp only [Transform2.transformVector, Transform2.translation] <;> ring
  · intro ux uy n
    ext <;> simp only [Transform2.transformNormal, Transform2.translation] <;> ring
  · intro u v
    ext <;> simp only [Transform3.transformVector, Transform3.translation] <;> ring
  · intro u n
    ext <;> simp only [Transform3.transformNormal, Transform3.translation] <;> ring

/-- Claim C10: approximate equality on `Rotation3` identifies the
quaternion double cover: `approx_eq_eps(q, r, eps)` holds iff the
components of `q` are componentwise approximately equal to those of `r` or
to those of `-r`; in particular every quaternion is approximately equal to
its negation. -/
theorem C10_approx_eq_double_cover (K : Type) [LinearOrderedField K] :
    (∀ (q r : Rotation3 K) (eps : K),
      Rotation3.approx_eq_eps q r eps ↔
        ((|q.a - r.a| < eps ∧ |q.i - r.i| < eps ∧
          |q.j - r.j| < eps ∧ |q.k - r.k| < eps) ∨
         (|q.a - -r.a| < eps ∧ |q.i - -r.i| < eps ∧
          |q.j - -r.j| < eps ∧ |q.k - -r.k| < eps))) ∧
    (∀ q : Rotation3 K, Rotation3.approx_eq q (Rotation3.neg q)) := by
  constructor
  · intro q r eps
    exact Iff.rfl
  · intro q
    right
    norm_num [approxEqEps, Rotation3.neg, scalarEpsilon]

/-- Claim C4: for every invertible affine `Transform3` (cached pair
correct, last matrix column `(0,0,0,1)` so there is no projective divide)
and every point `p`, `t.inverse().transform(t.transform(p))` recovers `p`
exactly under exact arithmetic. -/
theorem C4_affine_round_trip (K : Type) [LinearOrderedField K]
    (t : Transform3 K) (p : Point3 K) (hGood : t.Good)
    (h14 : t.mat.m14 = 0) (h24 : t.mat.m24 = 0) (h34 : t.mat.m34 = 0)
    (h44 : t.mat.m44 = 1) :
    (t.transform_point3 p).bind
      (fun q => (Transform3.inverse t).transform_point3 q) = Except.ok p := by
  obtain ⟨hi14, hi24, hi34, hi44⟩ := Transform3.inv_affine t hGood.2 h14 h24 h34 h44
  rw [Transform3.transform_point3_affine t p h14 h24 h34 h44]
  show (Transform3.inverse t).transform_point3 (t.affineImage p) = Except.ok p
  rw [Transform3.transform_point3_affine (Transform3.inverse t) _ hi14 hi24 hi34 hi44]
  refine congrArg Except.ok ?_
  have e11 := congrArg M4.m11 hGood.1
  have e21 := congrArg M4.m21 hGood.1
  have e31 := congrArg M4.m31 hGood.1
  have e41 := congrArg M4.m41 hGood.1
  have e12 := congrArg M4.m12 hGood.1
  have e22 := congrArg M4.m22 hGood.1
  have e32 := congrArg M4.m32 hGood.1
  have e42 := congrArg M4.m42 hGood.1
  have e13 := congrArg M4.m13 hGood.1
  have e23 := congrArg M4.m23 hGood.1
  have e33 := congrArg M4.m33 hGood.1
  have e43 := congrArg M4.m43 hGood.1
  simp only [M4.mul, M4.id] at e11 e21 e31 e41 e12 e22 e32 e42 e13 e23 e33 e43
  rw [h14] at e11 e12 e13
  rw [h24] at e21 e22 e23
  rw [h34] at e31 e32 e33
  rw [h44] at e41 e42 e43
  simp only [Transform3.affineImage, Transform3.inverse]
  ext
  · linear_combination p.x * e11 + p.y * e21 + p.z * e31 + e41
  · linear_combination p.x * e12 + p.y * e22 + p.z * e32 + e42
  · linear_combination p.x * e13 + p.y * e23 + p.z * e33 + e43

/-- Witness for C4: the round trip at the concrete affine transform
`Transform3::translation((1,2,3))` and the point `(1,1,1)` over ℚ. -/
theorem C4_affine_round_trip_witness :
    ((Transform3.translation (⟨1, 2, 3⟩ : Vector3 ℚ)).transform_point3 ⟨1, 1, 1⟩).bind
      (fun q => (Transform3.inverse
        (Transform3.translation (⟨1, 2, 3⟩ : Vector3 ℚ))).transform_point3 q) =
      Except.ok ⟨1, 1, 1⟩ :=
  C4_affine_round_trip ℚ _ _ (Transform3.translation3_good ⟨1, 2, 3⟩)
    rfl rfl rfl rfl

/-! ### Helper lemmas: box fitting and error propagation -/

theorem Box3.fitLoop_error (mn mx : Point3 K) (l : List (Except Unit (Point3 K)))
    (h : Except.error () ∈ l) : Box3.fitLoop mn mx l = Except.error () := by
  induction l generalizing mn mx with
  | nil => cases h
  | cons e rest ih =>
    cases e with
    | error u => rfl
    | ok p =>
      rw [Box3.fitLoop]
      apply ih
      rcases List.mem_cons.mp h with h1 | h2
      · exact absurd h1 (by simp)
      · exact h2

theorem Box3.try_from_points_error (l : List (Except Unit (Point3 K)))
    (h : Except.error () ∈ l) : Box3.try_from_points l = Except.error () := by
  cases l with
  | nil => cases h
  | cons e rest =>
    cases e with
    | error u => rfl
    | ok p =>
      rw [Box3.try_from_points]
      apply Box3.fitLoop_error
      rcases List.mem_cons.mp h with h1 | h2
      · exact absurd h1 (by simp)
      · exact h2

theorem Transform3.transform_point3_error (t : Transform3 K) (p : Point3 K)
    (h : (t.transformPoint p).w ≤ 0) :
    t.transform_point3 p = Except.error () := by
  rw [Transform3.transform_point3, homogeneousToPoint3, if_neg (not_lt.mpr h)]

/-- Claim C7: conversion from `HomogeneousVector` to `Point2`/`Point3`
succeeds, returning the components divided by `w`, exactly when `w > 0`;
and a `Transform3` box transform returns none for the whole box as soon as
any of the eight transformed corners has `w ≤ 0`. -/
theorem C7_w_failure_short_circuits (K : Type) [LinearOrderedField K] :
    (∀ v : HomogeneousVector K,
      ((∃ p, homogeneousToPoint3 v = Except.ok p) ↔ 0 < v.w) ∧
      ((∃ p, homogeneousToPoint2 v = Except.ok p) ↔ 0 < v.w) ∧
      (0 < v.w →
        homogeneousToPoint3 v = Except.ok ⟨v.x / v.w, v.y / v.w, v.z / v.w⟩ ∧
        homogeneousToPoint2 v = Except.ok ⟨v.x / v.w, v.y / v.w⟩)) ∧
    (∀ (t : Transform3 K) (b : Box3 K),
      (∃ c ∈ Box3.corners b, (t.transformPoint c).w ≤ 0) →
        t.transformBox b = none) := by
  constructor
  · intro v
    refine ⟨?_, ?_, ?_⟩
    · by_cases h : 0 < v.w <;> simp [homogeneousToPoint3, h]
    · by_cases h : 0 < v.w <;> simp [homogeneousToPoint2, h]
    · intro h
      constructor
      · rw [homogeneousToPoint3, if_pos h]
        refine congrArg Except.ok ?_
        ext <;> simp [div_eq_mul_inv]
      · rw [homogeneousToPoint2, if_pos h]
        refine congrArg Except.ok ?_
        ext <;> simp [div_eq_mul_inv]
  · intro t b h
    obtain ⟨c, hc, hw⟩ := h
    have herr : Box3.try_from_points
        ((Box3.corners b).map (fun p => t.transform_point3 p)) =
        Except.error () := by
      apply Box3.try_from_points_error
      refine List.mem_map.mpr ⟨c, hc, ?_⟩
      exact Transform3.transform_point3_error t c hw
    simp only [Transform3.transformBox, herr]

/-- Witness for C7: a transform whose fourth matrix column is
`(0,0,0,-1)` sends the minimum corner of the unit box to `w = -1 ≤ 0`, and
the whole box transform over ℚ returns none. -/
theorem C7_w_failure_short_circuits_witness :
    Transform3.transformBox
      (⟨⟨1, 0, 0, 0, 0, 1, 0, 0, 0, 0, 1, 0, 0, 0, 0, -1⟩, M4.id⟩ : Transform3 ℚ)
      ⟨⟨0, 0, 0⟩, ⟨1, 1, 1⟩⟩ = none :=
  (C7_w_failure_short_circuits ℚ).2 _ _
    ⟨⟨0, 0, 0⟩, by simp [Box3.corners], by norm_num [Transform3.transformPoint]⟩

/-! ### Helper lemmas: componentwise order and min/max folding -/

theorem rustMin_eq (x y : K) : rustMin x y = min x y := by
  rw [rustMin, min_def]

theorem rustMax_eq (x y : K) : rustMax x y = max x y := by
  rw [rustMax, max_comm, max_def]

theorem Point3.le_refl (p : Point3 K) : p.le p :=
  ⟨le_rfl, le_rfl, le_rfl⟩

theorem Point3.le_trans (p q r : Point3 K) (h1 : p.le q) (h2 : q.le r) : p.le r :=
  ⟨h1.1.trans h2.1, h1.2.1.trans h2.2.1, h1.2.2.trans h2.2.2⟩

theorem Point3.pmin_le_left (p q : Point3 K) : (Point3.pmin p q).le p := by
  simp only [Point3.pmin, Point3.le, rustMin_eq]
  exact ⟨min_le_left _ _, min_le_left _ _, min_le_left _ _⟩

theorem Point3.pmin_le_right (p q : Point3 K) : (Point3.pmin p q).le q := by
  simp only [Point3.pmin, Point3.le, rustMin_eq]
  exact ⟨min_le_right _ _, min_le_right _ _, min_le_right _ _⟩

theorem Point3.le_pmin (a p q : Point3 K) (h1 : a.le p) (h2 : a.le q) :
    a.le (Point3.pmin p q) := by
  simp only [Point3.pmin, Point3.le, rustMin_eq]
  exact ⟨le_min h1.1 h2.1, le_min h1.2.1 h2.2.1, le_min h1.2.2 h2.2.2⟩

theorem Point3.left_le_pmax (p q : Point3 K) : p.le (Point3.pmax p q) := by
  simp only [Point3.pmax, Point3.le, rustMax_eq]
  exact ⟨le_max_left _ _, le_max_left _ _, le_max_left _ _⟩

theorem Point3.right_le_pmax (p q : Point3 K) : q.le (Point3.pmax p q) := by
  simp only [Point3.pmax, Point3.le, rustMax_eq]
  exact ⟨le_max_right _ _, le_max_right _ _, le_max_right _ _⟩

theorem Point3.pmax_le (a p q : Point3 K) (h1 : p.le a) (h2 : q.le a) :
    (Point3.pmax p q).le a := by
  simp only [Point3.pmax, Point3.le, rustMax_eq]
  exact ⟨max_le h1.1 h2.1, max_le h1.2.1 h2.2.1, max_le h1.2.2 h2.2.2⟩

theorem Point3.foldMin_le_init (ps : List (Point3 K)) (mn : Point3 K) :
    (Point3.foldMin ps mn).le mn := by
  induction ps generalizing mn with
  | nil => exact Point3.le_refl mn
  | cons p rest ih =>
    exact Point3.le_trans _ _ _ (ih (Point3.pmin p mn)) (Point3.pmin_le_right p mn)

theorem Point3.foldMin_le_mem (ps : List (Point3 K)) (mn q : Point3 K)
    (h : q ∈ ps) : (Point3.foldMin ps mn).le q := by
  induction ps generalizing mn with
  | nil => cases h
  | cons p rest ih =>
    rcases List.mem_cons.mp h with rfl | h2
    · exact Point3.le_trans _ _ _ (Point3.foldMin_le_init rest _)
        (Point3.pmin_le_left q mn)
    · exact ih _ h2

theorem Point3.le_foldMin (ps : List (Point3 K)) (mn a : Point3 K)
    (h0 : a.le mn) (h : ∀ q ∈ ps, a.le q) : a.le (Point3.foldMin ps mn) := by
  induction ps generalizing mn with
  | nil => exact h0
  | cons p rest ih =>
    exact ih _ (Point3.le_pmin a p mn (h p (List.mem_cons_self p rest)) h0)
      (fun q hq => h q (List.mem_cons_of_mem p hq))

theorem Point3.init_le_foldMax (ps : List (Point3 K)) (mx : Point3 K) :
    mx.le (Point3.foldMax ps mx) := by
  induction ps generalizing mx with
  | nil => exact Point3.le_refl mx
  | cons p rest ih =>
    exact Point3.le_trans _ _ _ (Point3.right_le_pmax p mx) (ih (Point3.pmax p mx))

theorem Point3.mem_le_foldMax (ps : List (Point3 K)) (mx q : Point3 K)
    (h : q ∈ ps) : q.le (Point3.foldMax ps mx) := by
  induction ps generalizing mx with
  | nil => cases h
  | cons p rest ih =>
    rcases List.mem_cons.mp h with rfl | h2
    · exact Point3.le_trans _ _ _ (Point3.left_le_pmax q mx)
        (Point3.init_le_foldMax rest _)
    · exact ih _ h2

theorem Point3.foldMax_le (ps : List (Point3 K)) (mx a : Point3 K)
    (h0 : mx.le a) (h : ∀ q ∈ ps, q.le a) : (Point3.foldMax ps mx).le a := by
  induction ps generalizing mx with
  | nil => exact h0
  | cons p rest ih =>
    exact ih _ (Point3.pmax_le a p mx (h p (List.mem_cons_self p rest)) h0)
      (fun q hq => h q (List.mem_cons_of_mem p hq))

theorem Box3.fitLoop_map_ok (ps : List (Point3 K)) (mn mx : Point3 K) :
    Box3.fitLoop mn mx (ps.map Except.ok) =
      Except.ok ⟨Point3.foldMin ps mn, Point3.foldMax ps mx⟩ := by
  induction ps generalizing mn mx with
  | nil => rfl
  | cons p rest ih => exact ih _ _

theorem Box3.try_from_points_map_ok (ps : List (Point3 K)) :
    Box3.try_from_points (ps.map Except.ok) = Except.ok (Box3.fitPoints ps) := by
  cases ps with
  | nil => rfl
  | cons p rest => exact Box3.fitLoop_map_ok rest p p

theorem Box3.fitPoints_contains (p : Point3 K) (rest : List (Point3 K)) :
    ∀ q ∈ p :: rest, (Box3.fitPoints (p :: rest)).min.le q ∧
      q.le (Box3.fitPoints (p :: rest)).max := by
  intro q hq
  rcases List.mem_cons.mp hq with rfl | h2
  · exact ⟨Point3.foldMin_le_init rest q, Point3.init_le_foldMax rest q⟩
  · exact ⟨Point3.foldMin_le_mem rest p q h2, Point3.mem_le_foldMax rest p q h2⟩

theorem Box3.fitPoints_minimal (p : Point3 K) (rest : List (Point3 K))
    (B : Box3 K) (h : ∀ q ∈ p :: rest, B.min.le q ∧ q.le B.max) :
    B.min.le (Box3.fitPoints (p :: rest)).min ∧
      (Box3.fitPoints (p :: rest)).max.le B.max := by
  constructor
  · exact Point3.le_foldMin rest p B.min (h p (List.mem_cons_self p rest)).1
      (fun q hq => (h q (List.mem_cons_of_mem p hq)).1)
  · exact Point3.foldMax_le rest p B.max (h p (List.mem_cons_self p rest)).2
      (fun q hq => (h q (List.mem_cons_of_mem p hq)).2)

/-- Counterexample for C3 as stated: the unit quaternion `(3/5, 0, 0, 4/5)`
(a rotation about the z axis) applied to the unit box via the `Rotation3`
box transform yields a box whose `min.x` is strictly greater than the `x`
coordinate of the image of the corner `(1,0,0)` — so the quaternion form's
box transform does not contain all transformed corners, let alone fit them
tightly. -/
theorem C3_counterexample :
    Rotation3.norm_squared (⟨3/5, 0, 0, 4/5⟩ : Rotation3 ℚ) = 1 ∧
    (⟨1, 0, 0⟩ : Point3 ℚ) ∈ Box3.corners (⟨⟨0, 0, 0⟩, ⟨1, 1, 1⟩⟩ : Box3 ℚ) ∧
    (Rotation3.transformPoint (⟨3/5, 0, 0, 4/5⟩ : Rotation3 ℚ) ⟨1, 0, 0⟩).x <
      (Rotation3.transformBox (⟨3/5, 0, 0, 4/5⟩ : Rotation3 ℚ)
        ⟨⟨0, 0, 0⟩, ⟨1, 1, 1⟩⟩).min.x := by
  refine ⟨by norm_num [Rotation3.norm_squared], by simp [Box3.corners], ?_⟩
  norm_num [Rotation3.transformPoint, Rotation3.transformBox,
    Rotation3.vector_part, Point3.to_vector, Vector3.cross, Vector3.smul]

/-- Claim C3 (amended): for every affine `Transform3` (last matrix column
`(0,0,0,1)`; in particular every matrix-form pure rotation built by
`Transform3::rotation` or converted from a `Rotation3`), transforming a
`Box3` re-fits all eight transformed corners and returns the minimal
axis-aligned box containing them.  The quaternion `Rotation3` box
transform, by contrast, only maps the `min`/`max` corners without
re-fitting and does not satisfy this (see the counterexample). -/
theorem C3_matrix_box_tight_fit (K : Type) [LinearOrderedField K]
    (t : Transform3 K) (b : Box3 K)
    (h14 : t.mat.m14 = 0) (h24 : t.mat.m24 = 0) (h34 : t.mat.m34 = 0)
    (h44 : t.mat.m44 = 1) :
    t.transformBox b = some (t.tightFit b) ∧
    (∀ q ∈ (Box3.corners b).map (fun p => t.affineImage p),
      (t.tightFit b).min.le q ∧ q.le (t.tightFit b).max) ∧
    (∀ B : Box3 K,
      (∀ q ∈ (Box3.corners b).map (fun p => t.affineImage p),
        B.min.le q ∧ q.le B.max) →
      B.min.le (t.tightFit b).min ∧ (t.tightFit b).max.le B.max) := by
  have himg : ∀ l : List (Point3 K),
      l.map (fun p => t.transform_point3 p) =
        (l.map (fun p => t.affineImage p)).map Except.ok := by
    intro l
    induction l with
    | nil => rfl
    | cons p rest ih =>
      simp only [List.map_cons]
      rw [ih, Transform3.transform_point3_affine t p h14 h24 h34 h44]
  have hfit : Box3.try_from_points
      ((Box3.corners b).map (fun p => t.transform_point3 p)) =
      Except.ok (t.tightFit b) := by
    rw [himg, Box3.try_from_points_map_ok]
    rfl
  have hmain : t.transformBox b = some (t.tightFit b) := by
    simp only [Transform3.transformBox, hfit]
  rcases hcs : (Box3.corners b).map (fun p => t.affineImage p) with _ | ⟨q1, qrest⟩
  · simp [Box3.corners] at hcs
  · have hfit2 : t.tightFit b = Box3.fitPoints (q1 :: qrest) := by
      rw [Transform3.tightFit, hcs]
    refine ⟨hmain, ?_, ?_⟩
    · rw [hfit2]
      exact Box3.fitPoints_contains q1 qrest
    · intro B hB
      rw [hfit2]
      exact Box3.fitPoints_minimal q1 qrest B hB

/-- Witness for the amended C3 at the matrix form of the rotation
`(3/5, 0, 0, 4/5)` over ℚ applied to the unit box. -/
theorem C3_matrix_box_tight_fit_witness :
    Transform3.transformBox
        (Transform3.from_rotation3 (⟨3/5, 0, 0, 4/5⟩ : Rotation3 ℚ))
        ⟨⟨0, 0, 0⟩, ⟨1, 1, 1⟩⟩ =
      some (Transform3.tightFit
        (Transform3.from_rotation3 (⟨3/5, 0, 0, 4/5⟩ : Rotation3 ℚ))
        ⟨⟨0, 0, 0⟩, ⟨1, 1, 1⟩⟩) :=
  (C3_matrix_box_tight_fit ℚ _ _ rfl rfl rfl rfl).1

/-! ### Helper lemmas: quaternion arithmetic and normalisation -/

theorem Rotation3.normSq_mulF (q : Rotation3 K) (c : K) :
    (q.mulF c).norm_squared = c ^ 2 * q.norm_squared := by
  simp only [Rotation3.mulF, Rotation3.norm_squared]
  ring

theorem Rotation3.dotq_mulF_right (q r : Rotation3 K) (c : K) :
    Rotation3.dotq q (r.mulF c) = c * Rotation3.dotq q r := by
  simp only [Rotation3.mulF, Rotation3.dotq]
  ring

theorem Rotation3.normSq_blend (q r : Rotation3 K) (a b : K) :
    ((q.mulF a).addq (r.mulF b)).norm_squared =
      a ^ 2 * q.norm_squared + b ^ 2 * r.norm_squared +
        2 * a * b * Rotation3.dotq q r := by
  simp only [Rotation3.mulF, Rotation3.addq, Rotation3.norm_squared, Rotation3.dotq]
  ring

theorem Rotation3.normSq_subq_mulF (q r : Rotation3 K) (d : K) :
    (r.subq (q.mulF d)).norm_squared =
      r.norm_squared - 2 * d * Rotation3.dotq q r + d ^ 2 * q.norm_squared := by
  simp only [Rotation3.mulF, Rotation3.subq, Rotation3.norm_squared, Rotation3.dotq]
  ring

theorem Rotation3.dotq_subq_mulF (q r : Rotation3 K) (d : K) :
    Rotation3.dotq q (r.subq (q.mulF d)) =
      Rotation3.dotq q r - d * q.norm_squared := by
  simp only [Rotation3.mulF, Rotation3.subq, Rotation3.norm_squared, Rotation3.dotq]
  ring

theorem Rotation3.normSq_normalize (q : Rotation3 ℝ) (h : 0 < q.norm_squared) :
    q.normalize.norm_squared = 1 := by
  rw [Rotation3.normalize, Rotation3.normSq_mulF, Rotation3.norm,
    div_pow, one_pow, Real.sq_sqrt h.le]
  field_simp

theorem Rotation3.normalize_of_unit (q : Rotation3 ℝ) (h : q.norm_squared = 1) :
    q.normalize = q := by
  rw [Rotation3.normalize, Rotation3.norm, h, Real.sqrt_one]
  ext <;> simp [Rotation3.mulF]

theorem Rotation3.normSq_nonneg (q : Rotation3 K) : 0 ≤ q.norm_squared := by
  rw [Rotation3.norm_squared]
  nlinarith [sq_nonneg q.a, sq_nonneg q.i, sq_nonneg q.j, sq_nonneg q.k]

theorem Rotation3.dotq_sq_le_one (q r : Rotation3 K)
    (h1 : q.norm_squared = 1) (h2 : r.norm_squared = 1) :
    Rotation3.dotq q r ^ 2 ≤ 1 := by
  rw [Rotation3.norm_squared] at h1 h2
  rw [Rotation3.dotq]
  nlinarith [sq_nonneg (q.a * r.i - q.i * r.a), sq_nonneg (q.a * r.j - q.j * r.a),
    sq_nonneg (q.a * r.k - q.k * r.a), sq_nonneg (q.i * r.j - q.j * r.i),
    sq_nonneg (q.i * r.k - q.k * r.i), sq_nonneg (q.j * r.k - q.k * r.j)]

theorem Rotation3.eq_of_dotq_eq_one (q r : Rotation3 K)
    (h1 : q.norm_squared = 1) (h2 : r.norm_squared = 1)
    (hd : Rotation3.dotq q r = 1) : r = q := by
  rw [Rotation3.norm_squared] at h1 h2
  rw [Rotation3.dotq] at hd
  have hsum : (q.a - r.a) ^ 2 + (q.i - r.i) ^ 2 + (q.j - r.j) ^ 2 +
      (q.k - r.k) ^ 2 = 0 := by
    linear_combination h1 + h2 - 2 * hd
  have ha : (q.a - r.a) ^ 2 = 0 := by
    linarith [sq_nonneg (q.i - r.i), sq_nonneg (q.j - r.j), sq_nonneg (q.k - r.k),
      sq_nonneg (q.a - r.a)]
  have hi : (q.i - r.i) ^ 2 = 0 := by
    linarith [sq_nonneg (q.a - r.a), sq_nonneg (q.j - r.j), sq_nonneg (q.k - r.k),
      sq_nonneg (q.i - r.i)]
  have hj : (q.j - r.j) ^ 2 = 0 := by
    linarith [sq_nonneg (q.a - r.a), sq_nonneg (q.i - r.i), sq_nonneg (q.k - r.k),
      sq_nonneg (q.j - r.j)]
  have hk : (q.k - r.k) ^ 2 = 0 := by
    linarith [sq_nonneg (q.a - r.a), sq_nonneg (q.i - r.i), sq_nonneg (q.j - r.j),
      sq_nonneg (q.k - r.k)]
  have ha2 := (pow_eq_zero_iff (two_ne_zero)).mp ha
  have hi2 := (pow_eq_zero_iff (two_ne_zero)).mp hi
  have hj2 := (pow_eq_zero_iff (two_ne_zero)).mp hj
  have hk2 := (pow_eq_zero_iff (two_ne_zero)).mp hk
  ext <;> linarith [ha2, hi2, hj2, hk2]

theorem Rotation3.eq_negMul_of_dotq_eq_neg_one (q r : Rotation3 K)
    (h1 : q.norm_squared = 1) (h2 : r.norm_squared = 1)
    (hd : Rotation3.dotq q r = -1) : r = q.mulF (-1) := by
  rw [Rotation3.norm_squared] at h1 h2
  rw [Rotation3.dotq] at hd
  have hsum : (q.a + r.a) ^ 2 + (q.i + r.i) ^ 2 + (q.j + r.j) ^ 2 +
      (q.k + r.k) ^ 2 = 0 := by
    linear_combination h1 + h2 + 2 * hd
  have ha : (q.a + r.a) ^ 2 = 0 := by
    linarith [sq_nonneg (q.i + r.i), sq_nonneg (q.j + r.j), sq_nonneg (q.k + r.k),
      sq_nonneg (q.a + r.a)]
  have hi : (q.i + r.i) ^ 2 = 0 := by
    linarith [sq_nonneg (q.a + r.a), sq_nonneg (q.j + r.j), sq_nonneg (q.k + r.k),
      sq_nonneg (q.i + r.i)]
  have hj : (q.j + r.j) ^ 2 = 0 := by
    linarith [sq_nonneg (q.a + r.a), sq_nonneg (q.i + r.i), sq_nonneg (q.k + r.k),
      sq_nonneg (q.j + r.j)]
  have hk : (q.k + r.k) ^ 2 = 0 := by
    linarith [sq_nonneg (q.a + r.a), sq_nonneg (q.i + r.i), sq_nonneg (q.j + r.j),
      sq_nonneg (q.k + r.k)]
  have ha2 := (pow_eq_zero_iff (two_ne_zero)).mp ha
  have hi2 := (pow_eq_zero_iff (two_ne_zero)).mp hi
  have hj2 := (pow_eq_zero_iff (two_ne_zero)).mp hj
  have hk2 := (pow_eq_zero_iff (two_ne_zero)).mp hk
  ext <;> simp only [Rotation3.mulF] <;> linarith [ha2, hi2, hj2, hk2]

theorem Rotation3.slerp_spherical (q1 q2 r2a : Rotation3 ℝ) (d1 t : ℝ)
    (hb : ¬ approxEqEps (Rotation3.dotq q1 q2) 1 scalarEpsilon)
    (hr2a : r2a = if Rotation3.dotq q1 q2 < 0 then q2.mulF (-1) else q2)
    (hd1 : d1 = if Rotation3.dotq q1 q2 < 0 then -Rotation3.dotq q1 q2
      else Rotation3.dotq q1 q2)
    (hle : d1 ≤ 1) :
    q1.slerp q2 t =
      (q1.mulF (Real.cos (Real.arccos d1 * t))).addq
        (((r2a.subq (q1.mulF d1)).normalize).mulF
          (Real.sin (Real.arccos d1 * t))) := by
  subst hr2a hd1
  simp only [Rotation3.slerp]
  rw [if_neg hb, min_eq_left hle]

theorem Rotation3.slerpChecked_spherical (q1 q2 r2a : Rotation3 ℝ) (d1 t : ℝ)
    (hb : ¬ approxEqEps (Rotation3.dotq q1 q2) 1 scalarEpsilon)
    (hr2a : r2a = if Rotation3.dotq q1 q2 < 0 then q2.mulF (-1) else q2)
    (hd1 : d1 = if Rotation3.dotq q1 q2 < 0 then -Rotation3.dotq q1 q2
      else Rotation3.dotq q1 q2)
    (hle : d1 ≤ 1) :
    q1.slerpChecked q2 t =
      Option.map
        (fun r3 => (q1.mulF (Real.cos (Real.arccos d1 * t))).addq
          (r3.mulF (Real.sin (Real.arccos d1 * t))))
        ((r2a.subq (q1.mulF d1)).normalizeChecked) := by
  subst hr2a hd1
  simp only [Rotation3.slerpChecked]
  rw [if_neg hb, min_eq_left hle]

/-- Claim C2 (code-bug evidence): `around_axis` at axis `(1,0,0)` and angle
zero.  The claim, and the library's own conventions (`identity` is
`(1,0,0,0)`, `vector_part` is `(i,j,k)`, `from_euler_angles` passes the
scalar first), put the half-angle cosine in the scalar slot `a`, so a zero
angle must give the identity quaternion; the code instead passes
`(x*sin, y*sin, z*sin, cos)` positionally into `new_unchecked(a, i, j, k)`,
producing `(0,0,0,1)` — a half-turn about the z axis, which moves the
point `(1,2,3)` to `(-1,-2,3)` instead of fixing it. -/
theorem C2_around_axis_misplaced_components :
    Rotation3.around_axis (⟨1, 0, 0⟩ : Vector3 ℝ) 0 = ⟨0, 0, 0, 1⟩ ∧
    (Rotation3.identity : Rotation3 ℝ) = ⟨1, 0, 0, 0⟩ ∧
    Real.cos (0 / 2) = 1 ∧ Real.sin (0 / 2) = 0 ∧
    Rotation3.transformPoint (⟨0, 0, 0, 1⟩ : Rotation3 ℝ) ⟨1, 2, 3⟩ =
      ⟨-1, -2, 3⟩ := by
  have hlen : Vector3.length (⟨1, 0, 0⟩ : Vector3 ℝ) = 1 := by
    rw [Vector3.length, Vector3.length_squared]
    norm_num
  refine ⟨?_, rfl, by simp, by simp, ?_⟩
  · ext <;>
      simp [Rotation3.around_axis, Rotation3.new_unchecked, Vector3.normalize, hlen]
  · ext <;>
      norm_num [Rotation3.transformPoint, Rotation3.vector_part, Point3.to_vector,
        Vector3.cross, Vector3.smul]

/-- Counterexample for C8 as stated: at the antipodal unit pair
`q1 = (1,0,0,0)`, `q2 = (-1,0,0,0)` (dot product exactly -1, inside the
claim's "all unit quaternions"), the near-parallel check fails (the dot is
far from +1), the sign flip turns `q2` into `q1`, the clamped dot is 1,
and the code normalizes the zero quaternion `r2a - q1*dot`: an unguarded
division by a zero norm whose NaN poisons the whole result (the spec's
error taxonomy lists this path as unguarded NaN propagation).  In the
checked embedding, which models that NaN path as `none`, slerp at `t=1/2`
returns no quaternion at all — in particular not a unit-norm one and not
approximately `q1` or `q2`. -/
theorem C8_counterexample :
    Rotation3.norm_squared (⟨1, 0, 0, 0⟩ : Rotation3 ℝ) = 1 ∧
    Rotation3.norm_squared (⟨-1, 0, 0, 0⟩ : Rotation3 ℝ) = 1 ∧
    Rotation3.dotq (⟨1, 0, 0, 0⟩ : Rotation3 ℝ) ⟨-1, 0, 0, 0⟩ = -1 ∧
    Rotation3.slerpChecked (⟨1, 0, 0, 0⟩ : Rotation3 ℝ) ⟨-1, 0, 0, 0⟩
      (1 / 2) = none := by
  have hdot : Rotation3.dotq (⟨1, 0, 0, 0⟩ : Rotation3 ℝ) ⟨-1, 0, 0, 0⟩ = -1 := by
    norm_num [Rotation3.dotq]
  have hneg : Rotation3.dotq (⟨1, 0, 0, 0⟩ : Rotation3 ℝ) ⟨-1, 0, 0, 0⟩ < 0 := by
    rw [hdot]
    norm_num
  have hb : ¬ approxEqEps
      (Rotation3.dotq (⟨1, 0, 0, 0⟩ : Rotation3 ℝ) ⟨-1, 0, 0, 0⟩) 1
      scalarEpsilon := by
    rw [hdot, approxEqEps, scalarEpsilon]
    norm_num
  refine ⟨by norm_num [Rotation3.norm_squared],
    by norm_num [Rotation3.norm_squared], hdot, ?_⟩
  simp only [Rotation3.slerpChecked]
  rw [if_neg hb, if_pos hneg, if_pos hneg, hdot]
  have hmin : min (-(-1 : ℝ)) 1 = 1 := by norm_num
  rw [hmin]
  have hu : ((⟨-1, 0, 0, 0⟩ : Rotation3 ℝ).mulF (-1)).subq
      ((⟨1, 0, 0, 0⟩ : Rotation3 ℝ).mulF 1) = ⟨0, 0, 0, 0⟩ := by
    ext <;> norm_num [Rotation3.mulF, Rotation3.subq]
  rw [hu]
  have hz : (⟨0, 0, 0, 0⟩ : Rotation3 ℝ).norm = 0 := by
    rw [Rotation3.norm, Rotation3.norm_squared]
    norm_num
  rw [Rotation3.normalizeChecked, if_pos hz]
  rfl

set_option maxHeartbeats 1000000 in
/-- Claim C8 (amended): for all unit quaternions `q1`, `q2` that are not
antipodal (`dot(q1, q2) ≠ -1`, equivalently `q2 ≠ -q1`): the checked slerp
(whose `none` models the NaN the Rust code produces from its unguarded
zero-norm normalize) agrees with the total slerp, so no division by zero
occurs; `slerp(q1, q2, 0)` is exactly `q1`; `slerp(q1, q2, 1)` is exactly
`q2` up to the double-cover sign; and for every `t` in `[0,1]` the result
has unit norm — all under exact arithmetic.  At the excluded antipodal
pair the code normalizes the zero quaternion and propagates NaN (see the
counterexample). -/
theorem C8_slerp_endpoints_and_unit (q1 q2 : Rotation3 ℝ)
    (h1 : q1.norm_squared = 1) (h2 : q2.norm_squared = 1)
    (hna : Rotation3.dotq q1 q2 ≠ -1) :
    (∀ t : ℝ, q1.slerpChecked q2 t = some (q1.slerp q2 t)) ∧
    q1.slerp q2 0 = q1 ∧
    (q1.slerp q2 1 = q2 ∨ q1.slerp q2 1 = q2.mulF (-1)) ∧
    (∀ t : ℝ, 0 ≤ t → t ≤ 1 → (q1.slerp q2 t).norm_squared = 1) := by
  have hcs : Rotation3.dotq q1 q2 ^ 2 ≤ 1 := Rotation3.dotq_sq_le_one q1 q2 h1 h2
  have hdle1 : Rotation3.dotq q1 q2 ≤ 1 := by
    nlinarith [hcs, sq_nonneg (Rotation3.dotq q1 q2 - 1)]
  have hdge1 : -1 ≤ Rotation3.dotq q1 q2 := by
    nlinarith [hcs, sq_nonneg (Rotation3.dotq q1 q2 + 1)]
  by_cases hb : approxEqEps (Rotation3.dotq q1 q2) 1 scalarEpsilon
  · have hslerp : ∀ t : ℝ, q1.slerp q2 t = q1.lerp q2 t := by
      intro t
      simp only [Rotation3.slerp]
      rw [if_pos hb]
    have hd0 : (0 : ℝ) < Rotation3.dotq q1 q2 := by
      rw [approxEqEps, scalarEpsilon] at hb
      have := abs_lt.mp hb
      linarith [this.1]
    have hblend : ∀ t : ℝ,
        0 < ((q1.mulF (1 - t)).addq (q2.mulF t)).norm_squared := by
      intro t
      rw [Rotation3.normSq_blend, h1, h2]
      nlinarith [mul_nonneg (sub_nonneg.mpr hdle1) (sq_nonneg (1 - 2 * t)), hd0]
    refine ⟨?_, ?_, Or.inl ?_, ?_⟩
    · intro t
      simp only [Rotation3.slerpChecked, Rotation3.slerp, Rotation3.lerp]
      rw [if_pos hb, if_pos hb, Rotation3.normalizeChecked,
        if_neg (ne_of_gt (by rw [Rotation3.norm]; exact Real.sqrt_pos.mpr (hblend t)))]
    · rw [hslerp 0, Rotation3.lerp]
      have hv : (q1.mulF (1 - 0)).addq (q2.mulF 0) = q1 := by
        ext <;> simp [Rotation3.mulF, Rotation3.addq]
      rw [hv, Rotation3.normalize_of_unit q1 h1]
    · rw [hslerp 1, Rotation3.lerp]
      have hv : (q1.mulF (1 - 1)).addq (q2.mulF 1) = q2 := by
        ext <;> simp [Rotation3.mulF, Rotation3.addq]
      rw [hv, Rotation3.normalize_of_unit q2 h2]
    · intro t ht0 ht1
      rw [hslerp t, Rotation3.lerp]
      exact Rotation3.normSq_normalize _ (hblend t)
  · set d1 : ℝ := if Rotation3.dotq q1 q2 < 0 then -Rotation3.dotq q1 q2
      else Rotation3.dotq q1 q2 with hd1
    set r2a : Rotation3 ℝ := if Rotation3.dotq q1 q2 < 0 then q2.mulF (-1) else q2
      with hr2a
    have hd1nn : 0 ≤ d1 := by
      by_cases hneg : Rotation3.dotq q1 q2 < 0
      · rw [hd1, if_pos hneg]; linarith
      · rw [hd1, if_neg hneg]; linarith [not_lt.mp hneg]
    have hd1le : d1 ≤ 1 := by
      by_cases hneg : Rotation3.dotq q1 q2 < 0
      · rw [hd1, if_pos hneg]; linarith
      · rw [hd1, if_neg hneg]; linarith
    have hd1ne : d1 ≠ 1 := by
      by_cases hneg : Rotation3.dotq q1 q2 < 0
      · rw [hd1, if_pos hneg]
        intro hcontra
        exact hna (by linarith)
      · rw [hd1, if_neg hneg]
        intro hcontra
        apply hb
        rw [approxEqEps, scalarEpsilon, hcontra]
        norm_num
    have hlt : d1 < 1 := lt_of_le_of_ne hd1le hd1ne
    have hnorm2a : r2a.norm_squared = 1 := by
      by_cases hneg : Rotation3.dotq q1 q2 < 0
      · rw [hr2a, if_pos hneg, Rotation3.normSq_mulF, h2]; norm_num
      · rw [hr2a, if_neg hneg]; exact h2
    have hdot12a : Rotation3.dotq q1 r2a = d1 := by
      by_cases hneg : Rotation3.dotq q1 q2 < 0
      · rw [hr2a, if_pos hneg, Rotation3.dotq_mulF_right, hd1, if_pos hneg]; ring
      · rw [hr2a, if_neg hneg, hd1, if_neg hneg]
    have hr2aor : r2a = q2 ∨ r2a = q2.mulF (-1) := by
      by_cases hneg : Rotation3.dotq q1 q2 < 0
      · exact Or.inr (by rw [hr2a, if_pos hneg])
      · exact Or.inl (by rw [hr2a, if_neg hneg])
    have hform : ∀ t : ℝ, q1.slerp q2 t =
        (q1.mulF (Real.cos (Real.arccos d1 * t))).addq
          (((r2a.subq (q1.mulF d1)).normalize).mulF
            (Real.sin (Real.arccos d1 * t))) :=
      fun t => Rotation3.slerp_spherical q1 q2 r2a d1 t hb hr2a hd1 hd1le
    have hs : 0 < 1 - d1 ^ 2 := by nlinarith [hd1nn, hlt]
    have hnu : (r2a.subq (q1.mulF d1)).norm_squared = 1 - d1 ^ 2 := by
      rw [Rotation3.normSq_subq_mulF, h1, hnorm2a, hdot12a]
      ring
    have hagree : ∀ t : ℝ, q1.slerpChecked q2 t = some (q1.slerp q2 t) := by
      intro t
      rw [Rotation3.slerpChecked_spherical q1 q2 r2a d1 t hb hr2a hd1 hd1le,
        hform t, Rotation3.normalizeChecked,
        if_neg (ne_of_gt (by rw [Rotation3.norm, hnu]; exact Real.sqrt_pos.mpr hs))]
      rfl
    have hnr3 : (r2a.subq (q1.mulF d1)).normalize.norm_squared = 1 :=
      Rotation3.normSq_normalize _ (by rw [hnu]; exact hs)
    have hdotqu : Rotation3.dotq q1 (r2a.subq (q1.mulF d1)) = 0 := by
      rw [Rotation3.dotq_subq_mulF, hdot12a, h1]
      ring
    have hdot3 : Rotation3.dotq q1 (r2a.subq (q1.mulF d1)).normalize = 0 := by
      rw [Rotation3.normalize, Rotation3.dotq_mulF_right, hdotqu, mul_zero]
    have hunit : ∀ t : ℝ, (q1.slerp q2 t).norm_squared = 1 := by
      intro t
      rw [hform t, Rotation3.normSq_blend, h1, hnr3, hdot3]
      linear_combination Real.sin_sq_add_cos_sq (Real.arccos d1 * t)
    have hstart : q1.slerp q2 0 = q1 := by
      rw [hform 0, mul_zero]
      ext <;> simp [Rotation3.mulF, Rotation3.addq]
    have hsqrtne : Real.sqrt (1 - d1 ^ 2) ≠ 0 :=
      ne_of_gt (Real.sqrt_pos.mpr hs)
    have hend : q1.slerp q2 1 = r2a := by
      rw [hform 1, mul_one, Real.cos_arccos (by linarith) hd1le, Real.sin_arccos,
        Rotation3.normalize, Rotation3.norm, hnu]
      ext <;> simp [Rotation3.mulF, Rotation3.addq, Rotation3.subq] <;>
        field_simp
    refine ⟨hagree, hstart, ?_, fun t ht0 ht1 => hunit t⟩
    rcases hr2aor with hA | hB
    · exact Or.inl (by rw [hend, hA])
    · exact Or.inr (by rw [hend, hB])

/-- Witness for the amended C8 at the concrete non-antipodal unit
quaternions `(1,0,0,0)` and `(0,1,0,0)`: the checked slerp agrees with the
total one at `t = 0`, the `t = 0` endpoint is exact, and the result at
`t = 1/2` has unit norm. -/
theorem C8_slerp_endpoints_and_unit_witness :
    Rotation3.slerpChecked (⟨1, 0, 0, 0⟩ : Rotation3 ℝ) ⟨0, 1, 0, 0⟩ 0 =
      some (Rotation3.slerp (⟨1, 0, 0, 0⟩ : Rotation3 ℝ) ⟨0, 1, 0, 0⟩ 0) ∧
    Rotation3.slerp (⟨1, 0, 0, 0⟩ : Rotation3 ℝ) ⟨0, 1, 0, 0⟩ 0 = ⟨1, 0, 0, 0⟩ ∧
    (Rotation3.slerp (⟨1, 0, 0, 0⟩ : Rotation3 ℝ) ⟨0, 1, 0, 0⟩
      (1 / 2)).norm_squared = 1 := by
  have h := C8_slerp_endpoints_and_unit ⟨1, 0, 0, 0⟩ ⟨0, 1, 0, 0⟩
    (by norm_num [Rotation3.norm_squared]) (by norm_num [Rotation3.norm_squared])
    (by norm_num [Rotation3.dotq])
  exact ⟨h.1 0, h.2.1, h.2.2.2 (1 / 2) (by norm_num) (by norm_num)⟩

end rt3
